import Mathlib

/-!
Shallow embedding of the elevator-design repository core:
the per-car state machine (`Domain.cpp`), the building and floor
button state, the event queue (`EventQueue.hpp`), the two group
schedulers (`Scheduler.cpp`) and the per-tick driver
(`Simulation.cpp`).  C++ `int` is modelled as `Int`, `std::set<int>`
as a list kept sorted and duplicate-free by `setInsert`, and
`std::map<std::pair<int,Direction>, int>` as an association list kept
sorted by the same lexicographic key order the C++ map uses
(`Direction` compared by its enum value `Up=0, Down=1, Idle=2`).
-/

namespace ElevatorDesign

/-- Model of `enum class Direction { Up, Down, Idle }` from Types.hpp. -/
inductive Direction where
  | Up
  | Down
  | Idle
deriving DecidableEq, Repr

/-- Underlying enum value of a `Direction`, used by the C++
`std::map` key comparison (`std::pair<int, Direction>::operator<`). -/
def Direction.val : Direction → Int
  | .Up => 0
  | .Down => 1
  | .Idle => 2

/-- Model of `enum class ElevatorState` from Types.hpp. -/
inductive ElevatorState where
  | Idle
  | Moving
  | DoorsOpening
  | DoorsOpen
  | DoorsClosing
deriving DecidableEq, Repr

/-- Model of `enum class EventType` from Types.hpp. -/
inductive EventType where
  | HallCall
  | CarCall
  | ElevatorArrived
  | DoorsOpened
  | DoorsClosed
  | Tick
  | Shutdown
deriving DecidableEq, Repr

/-- Model of `enum class ControllerType` from Types.hpp. -/
inductive ControllerType where
  | Master
  | Distributed
deriving DecidableEq, Repr

/-- Model of `struct Config` from Types.hpp (the wall-clock `timestamp` of
events and `tickDurationMs` pacing are real-time concerns with no
observable effect on the state transitions modelled here). -/
structure Config where
  numFloors : Int
  numElevators : Int
  carCapacity : Int
  tickDurationMs : Int
  doorOpenTicks : Int
  floorTravelTicks : Int
  controllerType : ControllerType
deriving DecidableEq, Repr

/-- Model of `struct Event` from Types.hpp, minus the wall-clock timestamp.
Fields default to `floor = -1`, `elevatorId = -1`,
`direction = Direction::Idle` exactly as in the source. -/
structure Event where
  type : EventType
  floor : Int
  elevatorId : Int
  direction : Direction
deriving DecidableEq, Repr

/-- Build an event the way the C++ code does when it only sets
`type` and `floor`/`direction` (hall call). -/
def mkHallCallEvent (floor : Int) (dir : Direction) : Event :=
  ⟨EventType.HallCall, floor, -1, dir⟩

/-! ### `std::set<int>` as a sorted duplicate-free list -/

/-- Insertion into a sorted duplicate-free list of `Int`, the model of
`std::set<int>::insert`. -/
def setInsert (x : Int) : List Int → List Int
  | [] => [x]
  | y :: ys =>
    if x < y then x :: y :: ys
    else if x = y then y :: ys
    else y :: setInsert x ys

/-- Removal from the sorted list, the model of `std::set<int>::erase`. -/
def setErase (x : Int) : List Int → List Int
  | [] => []
  | y :: ys => if x = y then ys else y :: setErase x ys

/-! ### `std::map<std::pair<int,Direction>, int>` as a sorted association list -/

/-- A hall-call key: the pair `(floor, direction)`. -/
abbrev HallKey := Int × Direction

/-- The strict order on keys used by the C++ `std::map`:
lexicographic on `(floor, direction)` with `Direction` compared by
enum value. -/
def keyLt (a b : HallKey) : Prop :=
  a.1 < b.1 ∨ (a.1 = b.1 ∧ a.2.val < b.2.val)

instance : DecidablePred fun p : HallKey × HallKey => keyLt p.1 p.2 :=
  fun _ => by unfold keyLt; infer_instance

instance (a b : HallKey) : Decidable (keyLt a b) := by
  unfold keyLt; infer_instance

/-- The model of `std::map<std::pair<int,Direction>, int>`: an
association list kept sorted by `keyLt`. -/
abbrev CallMap := List (HallKey × Int)

/-- Model of `map.find(key)` — `none` models `find() == end()`. -/
def mapFind (m : CallMap) (k : HallKey) : Option Int :=
  match m with
  | [] => none
  | (k2, v) :: rest => if k = k2 then some v else mapFind rest k

/-- Model of `map[key] = v` — insert or overwrite, keeping the list sorted. -/
def mapInsert (k : HallKey) (v : Int) : CallMap → CallMap
  | [] => [(k, v)]
  | (k2, v2) :: rest =>
    if keyLt k k2 then (k, v) :: (k2, v2) :: rest
    else if k = k2 then (k, v) :: rest
    else (k2, v2) :: mapInsert k v rest

/-- Model of `map.erase(key)`. -/
def mapErase (k : HallKey) : CallMap → CallMap
  | [] => []
  | (k2, v2) :: rest => if k = k2 then rest else (k2, v2) :: mapErase k rest

/-! ### Floor (Domain.hpp / Domain.cpp) -/

/-- Model of `class Floor`: a floor number plus the two landing-button flags. -/
structure Floor where
  floorNumber : Int
  upButtonPressed : Bool
  downButtonPressed : Bool
deriving DecidableEq, Repr

/-- Model of `Floor::Floor(int number)` — both buttons start out false. -/
def mkFloor (number : Int) : Floor :=
  ⟨number, false, false⟩

/-- Model of `Floor::pressUpButton`. -/
def Floor.pressUpButton (f : Floor) : Floor := {f with upButtonPressed := true}

/-- Model of `Floor::pressDownButton`. -/
def Floor.pressDownButton (f : Floor) : Floor := {f with downButtonPressed := true}

/-- Model of `Floor::clearUpButton`. -/
def Floor.clearUpButton (f : Floor) : Floor := {f with upButtonPressed := false}

/-- Model of `Floor::clearDownButton`. -/
def Floor.clearDownButton (f : Floor) : Floor := {f with downButtonPressed := false}

/-! ### Elevator (Domain.hpp / Domain.cpp) -/

/-- Model of `class Elevator`.  `carCalls` models `std::set<int>` as a sorted
duplicate-free list. -/
structure Elevator where
  id : Int
  currentFloor : Int
  direction : Direction
  state : ElevatorState
  carCalls : List Int
  passengerCount : Int
  capacity : Int
  ticksRemaining : Int
deriving DecidableEq, Repr

/-- Model of `Elevator::Elevator(int id, int capacity, int startFloor)` with the
in-class member initialisers of Domain.hpp (`direction_ = Idle`,
`state_ = Idle`, `passengerCount_ = 0`, `ticksRemaining_ = 0`). -/
def mkElevator (id capacity startFloor : Int) : Elevator :=
  { id := id
    currentFloor := startFloor
    direction := Direction.Idle
    state := ElevatorState.Idle
    carCalls := []
    passengerCount := 0
    capacity := capacity
    ticksRemaining := 0 }

/-- Model of `Elevator::addCarCall`. -/
def Elevator.addCarCall (e : Elevator) (floor : Int) : Elevator :=
  {e with carCalls := setInsert floor e.carCalls}

/-- Model of `Elevator::removeCarCall`. -/
def Elevator.removeCarCall (e : Elevator) (floor : Int) : Elevator :=
  {e with carCalls := setErase floor e.carCalls}

/-- Model of `Elevator::hasAnyCarCalls`. -/
def Elevator.hasAnyCarCalls (e : Elevator) : Bool :=
  !e.carCalls.isEmpty

/-- Model of `Elevator::startMoving(dir, ticksToArrive)`. -/
def Elevator.startMoving (e : Elevator) (dir : Direction) (ticksToArrive : Int) : Elevator :=
  {e with direction := dir, state := ElevatorState.Moving, ticksRemaining := ticksToArrive}

/-- Model of `Elevator::decrementTick` — only decrements when the timer is
strictly positive. -/
def Elevator.decrementTick (e : Elevator) : Elevator :=
  if e.ticksRemaining > 0 then {e with ticksRemaining := e.ticksRemaining - 1} else e

/-- Model of `Elevator::arriveAtFloor(floor)` — sets the floor and moves the
state to `DoorsOpening`; note that it does not touch `ticksRemaining`. -/
def Elevator.arriveAtFloor (e : Elevator) (floor : Int) : Elevator :=
  {e with currentFloor := floor, state := ElevatorState.DoorsOpening}

/-- Model of `Elevator::openDoors(ticksToOpen)`. -/
def Elevator.openDoors (e : Elevator) (ticksToOpen : Int) : Elevator :=
  {e with state := ElevatorState.DoorsOpening, ticksRemaining := ticksToOpen}

/-- Model of `Elevator::setDoorsOpen(ticksOpen)`. -/
def Elevator.setDoorsOpen (e : Elevator) (ticksOpen : Int) : Elevator :=
  {e with state := ElevatorState.DoorsOpen, ticksRemaining := ticksOpen}

/-- Model of `Elevator::closeDoors(ticksToClose)`. -/
def Elevator.closeDoors (e : Elevator) (ticksToClose : Int) : Elevator :=
  {e with state := ElevatorState.DoorsClosing, ticksRemaining := ticksToClose}

/-- Model of `Elevator::setIdle`. -/
def Elevator.setIdle (e : Elevator) : Elevator :=
  {e with state := ElevatorState.Idle, direction := Direction.Idle, ticksRemaining := 0}

/-- Model of `Elevator::costToServe(floor, dir, numFloors)` — the Master cost
function. -/
def Elevator.costToServe (e : Elevator) (floor : Int) (dir : Direction) (numFloors : Int) : Int :=
  let distance := |e.currentFloor - floor|
  if e.state = ElevatorState.Idle then distance
  else
    let sameDirection := e.direction = dir
    let onTheWay := (e.direction = Direction.Up ∧ floor > e.currentFloor) ∨
                    (e.direction = Direction.Down ∧ floor < e.currentFloor)
    if sameDirection ∧ onTheWay then distance
    else distance + 2 * numFloors

/-! ### Building (Domain.hpp / Domain.cpp) -/

/-- Model of `class Building`: the floors (1-indexed, stored at index
`floor - 1`), the elevators (stored at index `id`) and the config. -/
structure Building where
  floors : List Floor
  elevators : List Elevator
  config : Config
deriving DecidableEq, Repr

/-- Model of `Building::Building(const Config&)` — floors numbered `1..numFloors`,
elevators `0..numElevators-1`, each elevator starting at floor 1 with
capacity `config.carCapacity`. -/
def mkBuilding (config : Config) : Building :=
  { floors := (List.range config.numFloors.toNat).map (fun i => mkFloor (Int.ofNat i + 1))
    elevators := (List.range config.numElevators.toNat).map
      (fun i => mkElevator (Int.ofNat i) config.carCapacity 1)
    config := config }

/-- Model of `Building::isValidFloor`. -/
def Building.isValidFloor (b : Building) (floor : Int) : Prop :=
  1 ≤ floor ∧ floor ≤ b.config.numFloors

instance (b : Building) (floor : Int) : Decidable (b.isValidFloor floor) := by
  unfold Building.isValidFloor; infer_instance

/-- Model of `Building::isValidElevator`. -/
def Building.isValidElevator (b : Building) (id : Int) : Prop :=
  0 ≤ id ∧ id < b.config.numElevators

instance (b : Building) (id : Int) : Decidable (b.isValidElevator id) := by
  unfold Building.isValidElevator; infer_instance

/-- Read elevator `id` (the model of `Building::getElevator`; a
negative or out-of-range id, on which the C++ throws, yields `none`). -/
def Building.getElevatorOpt (b : Building) (id : Int) : Option Elevator :=
  if id < 0 then none else b.elevators[id.toNat]?

/-- Apply `g` to elevator `id` in place (the pattern
`building_.getElevator(id).mutator(...)`). -/
def Building.modifyElevator (b : Building) (id : Int) (g : Elevator → Elevator) : Building :=
  if id < 0 then b
  else
    match b.elevators[id.toNat]? with
    | none => b
    | some e => {b with elevators := b.elevators.set id.toNat (g e)}

/-- Model of `Building::registerHallCall(floor, dir)` — silently ignores an
invalid floor; otherwise presses the matching button of
`floors_[floor - 1]`. -/
def Building.registerHallCall (b : Building) (floor : Int) (dir : Direction) : Building :=
  if b.isValidFloor floor then
    match b.floors[(floor - 1).toNat]? with
    | none => b
    | some f =>
      match dir with
      | Direction.Up => {b with floors := b.floors.set (floor - 1).toNat f.pressUpButton}
      | Direction.Down => {b with floors := b.floors.set (floor - 1).toNat f.pressDownButton}
      | Direction.Idle => b
  else b

/-- Model of `Building::clearHallCall(floor, dir)`. -/
def Building.clearHallCall (b : Building) (floor : Int) (dir : Direction) : Building :=
  if b.isValidFloor floor then
    match b.floors[(floor - 1).toNat]? with
    | none => b
    | some f =>
      match dir with
      | Direction.Up => {b with floors := b.floors.set (floor - 1).toNat f.clearUpButton}
      | Direction.Down => {b with floors := b.floors.set (floor - 1).toNat f.clearDownButton}
      | Direction.Idle => b
  else b

/-- Model of `Building::hasHallCall(floor, dir)` — false for an invalid floor
or an `Idle` direction. -/
def Building.hasHallCall (b : Building) (floor : Int) (dir : Direction) : Bool :=
  if b.isValidFloor floor then
    match b.floors[(floor - 1).toNat]? with
    | none => false
    | some f =>
      match dir with
      | Direction.Up => f.upButtonPressed
      | Direction.Down => f.downButtonPressed
      | Direction.Idle => false
  else false

/-- Model of `Building::getAllHallCalls` — every pressed button, floors in
order, `Up` before `Down` on the same floor. -/
def Building.getAllHallCalls (b : Building) : List (Int × Direction) :=
  b.floors.foldr
    (fun f acc =>
      (if f.upButtonPressed then [(f.floorNumber, Direction.Up)] else []) ++
      (if f.downButtonPressed then [(f.floorNumber, Direction.Down)] else []) ++ acc)
    []

/-! ### EventQueue (EventQueue.hpp)

The queue is a mutex-protected FIFO; the sequential observable
behaviour embedded here is the buffered item list plus the shutdown
flag.  `pop` blocks when the queue is empty and not shut down; that
outcome is modelled by the outer `none`. -/

/-- Model of `template<typename T> class EventQueue`. -/
structure EventQueue (T : Type) where
  items : List T
  shutdownFlag : Bool
deriving DecidableEq, Repr

/-- A freshly constructed queue: empty, not shut down. -/
def EventQueue.empty (T : Type) : EventQueue T := ⟨[], false⟩

/-- Model of `EventQueue::push` — always appends, even after shutdown. -/
def EventQueue.push (q : EventQueue T) (event : T) : EventQueue T :=
  {q with items := q.items ++ [event]}

/-- Model of `EventQueue::pop` — returns the front item if any; returns `none`
(the `std::nullopt` result) when shut down and drained; blocks
otherwise (outer `none`). -/
def EventQueue.pop (q : EventQueue T) : Option (Option T × EventQueue T) :=
  match q.items with
  | e :: rest => some (some e, {q with items := rest})
  | [] => if q.shutdownFlag then some (none, q) else none

/-- Model of `EventQueue::tryPop`. -/
def EventQueue.tryPop (q : EventQueue T) : Option T × EventQueue T :=
  match q.items with
  | [] => (none, q)
  | e :: rest => (some e, {q with items := rest})

/-- Model of `EventQueue::shutdown` — sets the flag; items stay buffered. -/
def EventQueue.shutdown (q : EventQueue T) : EventQueue T :=
  {q with shutdownFlag := true}

/-- Model of `EventQueue::isShutdown`. -/
def EventQueue.isShutdown (q : EventQueue T) : Bool := q.shutdownFlag

/-- Push a whole list of items in order. -/
def EventQueue.pushAll (q : EventQueue T) (events : List T) : EventQueue T :=
  events.foldl EventQueue.push q

/-- Repeatedly `pop`, collecting the delivered items (at most `n` of
them). -/
def EventQueue.drainPops (n : Nat) (q : EventQueue T) : List T :=
  match n with
  | 0 => []
  | n + 1 =>
    match q.pop with
    | some (some e, q2) => e :: EventQueue.drainPops n q2
    | _ => []

/-! ### Master controller (Scheduler.cpp) -/

/-- Model of `class MasterController`: the building it mutates plus the
`assignments_` map. -/
structure MasterController where
  building : Building
  assignments : CallMap
deriving DecidableEq, Repr

namespace MasterController

/-- The loop body accumulator step of `MasterController::selectElevator`:
`bestCost` starts at `INT_MAX`, modelled as `none`; the update keeps
the earlier elevator on cost ties (`cost < bestCost` is strict). -/
def selectAux (b : Building) (floor : Int) (dir : Direction) :
    List Nat → Int × Option Int → Int × Option Int
  | [], acc => acc
  | i :: rest, (best, bestCost) =>
    let acc2 :=
      match b.getElevatorOpt (Int.ofNat i) with
      | none => (best, bestCost)
      | some e =>
        let cost := e.costToServe floor dir b.config.numFloors
        match bestCost with
        | none => (Int.ofNat i, some cost)
        | some bc => if cost < bc then (Int.ofNat i, some cost) else (best, some bc)
    selectAux b floor dir rest acc2

/-- Model of `MasterController::selectElevator` — scans elevators `0..M-1`,
returns the id with minimum `costToServe` (ties to the lowest id), or
`-1` when there are no elevators. -/
def selectElevator (b : Building) (floor : Int) (dir : Direction) : Int :=
  (selectAux b floor dir (List.range b.config.numElevators.toNat) (-1, none)).1

/-- Pick `*std::min_element` of the destination set by distance to
`current`; the comparator is strict, so the first (lowest) floor wins
ties. -/
def minByDist (current : Int) : List Int → Option Int
  | [] => none
  | t :: ts =>
    some (ts.foldl (fun best a => if |a - current| < |best - current| then a else best) t)

/-- Model of `MasterController::dispatchElevator`. -/
def dispatchElevator (s : MasterController) (elevatorId : Int) : MasterController :=
  match s.building.getElevatorOpt elevatorId with
  | none => s
  | some e =>
    if e.state ≠ ElevatorState.Idle then s
    else
      let destinations := s.assignments.foldl
        (fun ds kv => if kv.2 = elevatorId then setInsert kv.1.1 ds else ds) e.carCalls
      match minByDist e.currentFloor destinations with
      | none => s
      | some target =>
        let dir := if target > e.currentFloor then Direction.Up else Direction.Down
        if target = e.currentFloor then
          let b2 := s.building.modifyElevator elevatorId
            (fun e2 => e2.openDoors s.building.config.doorOpenTicks)
          {s with building := b2}
        else
          let b2 := s.building.modifyElevator elevatorId
            (fun e2 => e2.startMoving dir s.building.config.floorTravelTicks)
          {s with building := b2}

/-- Model of `MasterController::handleHallCall`. -/
def handleHallCall (s : MasterController) (floor : Int) (dir : Direction) : MasterController :=
  let key : HallKey := (floor, dir)
  if mapFind s.assignments key ≠ none then s
  else
    let b := s.building.registerHallCall floor dir
    let elevatorId := selectElevator b floor dir
    if elevatorId ≥ 0 then
      dispatchElevator ⟨b, mapInsert key elevatorId s.assignments⟩ elevatorId
    else
      ⟨b, s.assignments⟩

/-- Model of `MasterController::handleCarCall`. -/
def handleCarCall (s : MasterController) (elevatorId floor : Int) : MasterController :=
  if s.building.isValidElevator elevatorId ∧ s.building.isValidFloor floor then
    dispatchElevator
      ⟨s.building.modifyElevator elevatorId (fun e => e.addCarCall floor), s.assignments⟩
      elevatorId
  else s

/-- Model of `MasterController::tick` — re-dispatch every idle elevator. -/
def tick (s : MasterController) : MasterController :=
  (List.range s.building.config.numElevators.toNat).foldl
    (fun s2 i =>
      match s2.building.getElevatorOpt (Int.ofNat i) with
      | some e => if e.state = ElevatorState.Idle then dispatchElevator s2 (Int.ofNat i) else s2
      | none => s2)
    s

end MasterController

/-! ### Distributed controller (Scheduler.cpp) -/

/-- Model of `class DistributedController`: the building plus the `claimBoard_`
map, where value `-1` is the `Unclaimed` sentinel. -/
structure DistributedController where
  building : Building
  claimBoard : CallMap
deriving DecidableEq, Repr

namespace DistributedController

/-- Model of `DistributedController::handleHallCall` — register the landing
button, then insert the key as unclaimed when absent. -/
def handleHallCall (s : DistributedController) (floor : Int) (dir : Direction) :
    DistributedController :=
  let b := s.building.registerHallCall floor dir
  let key : HallKey := (floor, dir)
  let board :=
    if mapFind s.claimBoard key = none then mapInsert key (-1) s.claimBoard else s.claimBoard
  ⟨b, board⟩

/-- Model of `DistributedController::getClaimsFor`. -/
def getClaimsFor (s : DistributedController) (elevatorId : Int) : List HallKey :=
  (s.claimBoard.filter (fun kv => kv.2 = elevatorId)).map (fun kv => kv.1)

/-- Model of `DistributedController::tryClaimCalls` — skip a non-idle car that
has car calls; otherwise claim the nearest unclaimed entry (strict
comparison, so the board's key order breaks ties: lowest floor, then
`Up` before `Down`).  `bestDistance` starts at `INT_MAX` (`none`), and
a claim happens only when `bestFloor ≥ 0`. -/
def tryClaimCalls (s : DistributedController) (elevatorId : Int) : DistributedController :=
  match s.building.getElevatorOpt elevatorId with
  | none => s
  | some e =>
    if e.state ≠ ElevatorState.Idle ∧ e.hasAnyCarCalls then s
    else
      let current := e.currentFloor
      let best := s.claimBoard.foldl
        (fun (acc : Int × Direction × Option Int) kv =>
          if kv.2 = -1 then
            let distance := |kv.1.1 - current|
            match acc.2.2 with
            | none => (kv.1.1, kv.1.2, some distance)
            | some bd =>
              if distance < bd then (kv.1.1, kv.1.2, some distance) else acc
          else acc)
        (-1, Direction.Idle, none)
      if best.1 ≥ 0 then
        {s with claimBoard := mapInsert (best.1, best.2.1) elevatorId s.claimBoard}
      else s

/-- Model of `DistributedController::decideNextAction`. -/
def decideNextAction (s : DistributedController) (elevatorId : Int) : DistributedController :=
  match s.building.getElevatorOpt elevatorId with
  | none => s
  | some e =>
    if e.state ≠ ElevatorState.Idle then s
    else
      let destinations := (s.getClaimsFor elevatorId).foldl
        (fun ds k => setInsert k.1 ds) e.carCalls
      match MasterController.minByDist e.currentFloor destinations with
      | none => s
      | some target =>
        if target = e.currentFloor then
          let b2 := s.building.modifyElevator elevatorId
            (fun e2 => e2.openDoors s.building.config.doorOpenTicks)
          {s with building := b2}
        else
          let dir := if target > e.currentFloor then Direction.Up else Direction.Down
          let b2 := s.building.modifyElevator elevatorId
            (fun e2 => e2.startMoving dir s.building.config.floorTravelTicks)
          {s with building := b2}

/-- Model of `DistributedController::handleCarCall`. -/
def handleCarCall (s : DistributedController) (elevatorId floor : Int) : DistributedController :=
  if s.building.isValidElevator elevatorId ∧ s.building.isValidFloor floor then
    decideNextAction
      ⟨s.building.modifyElevator elevatorId (fun e => e.addCarCall floor), s.claimBoard⟩
      elevatorId
  else s

/-- Model of `DistributedController::tick` — each car in id order tries to
claim, then an idle car decides its next action. -/
def tick (s : DistributedController) : DistributedController :=
  (List.range s.building.config.numElevators.toNat).foldl
    (fun s2 i =>
      let s3 := tryClaimCalls s2 (Int.ofNat i)
      match s3.building.getElevatorOpt (Int.ofNat i) with
      | some e =>
        if e.state = ElevatorState.Idle then decideNextAction s3 (Int.ofNat i) else s3
      | none => s3)
    s

end DistributedController

/-! ### The tick driver and ingress validation (Simulation.cpp) -/

/-- The body of the per-elevator loop of
`SimulationEngine::updateElevators` for elevator `i`: advances that
car's timed phase on the building and pushes any resulting event. -/
def updateOneElevator (config : Config) (b : Building) (q : EventQueue Event) (i : Nat) :
    Building × EventQueue Event :=
  match b.getElevatorOpt (Int.ofNat i) with
  | none => (b, q)
  | some e0 =>
    match e0.state with
    | ElevatorState.Moving =>
      let e := e0.decrementTick
      if e.ticksRemaining = 0 then
        let next := if e.direction = Direction.Up then e.currentFloor + 1
                    else e.currentFloor - 1
        let e2 := e.arriveAtFloor next
        (b.modifyElevator (Int.ofNat i) (fun _ => e2),
         q.push ⟨EventType.ElevatorArrived, next, Int.ofNat i, Direction.Idle⟩)
      else (b.modifyElevator (Int.ofNat i) (fun _ => e), q)
    | ElevatorState.DoorsOpening =>
      let e := e0.decrementTick
      if e.ticksRemaining = 0 then
        let e2 := e.setDoorsOpen config.doorOpenTicks
        (b.modifyElevator (Int.ofNat i) (fun _ => e2),
         q.push ⟨EventType.DoorsOpened, e.currentFloor, Int.ofNat i, Direction.Idle⟩)
      else (b.modifyElevator (Int.ofNat i) (fun _ => e), q)
    | ElevatorState.DoorsOpen =>
      let e := e0.decrementTick
      if e.ticksRemaining = 0 then
        (b.modifyElevator (Int.ofNat i) (fun _ => e.closeDoors 1), q)
      else (b.modifyElevator (Int.ofNat i) (fun _ => e), q)
    | ElevatorState.DoorsClosing =>
      let e := e0.decrementTick
      if e.ticksRemaining = 0 then
        if e.hasAnyCarCalls ∨ b.getAllHallCalls ≠ [] then
          (b.modifyElevator (Int.ofNat i) (fun _ => e),
           q.push ⟨EventType.DoorsClosed, -1, Int.ofNat i, Direction.Idle⟩)
        else
          (b.modifyElevator (Int.ofNat i) (fun _ => e.setIdle), q)
      else (b.modifyElevator (Int.ofNat i) (fun _ => e), q)
    | ElevatorState.Idle => (b, q)

/-- Model of `SimulationEngine::updateElevators` — the loop over all cars. -/
def updateElevators (config : Config) (b : Building) (q : EventQueue Event) :
    Building × EventQueue Event :=
  (List.range b.config.numElevators.toNat).foldl
    (fun bq i => updateOneElevator config bq.1 bq.2 i) (b, q)

/-- Model of `SimulationEngine::requestHallCall` — the ingress validation.
Returns the `HallCall` event to enqueue, or `none` when the request
is rejected (the C++ only logs a diagnostic and returns, touching
neither the queue nor the building). -/
def requestHallCall (b : Building) (floor : Int) (dir : Direction) : Option Event :=
  if ¬ b.isValidFloor floor then none
  else if dir = Direction.Idle then none
  else if floor = 1 ∧ dir = Direction.Down then none
  else if floor = b.config.numFloors ∧ dir = Direction.Up then none
  else some (mkHallCallEvent floor dir)

/-- Model of `SimulationEngine::requestHallCall` acting on the event queue:
push the event when valid, leave the queue alone otherwise. -/
def requestHallCallQ (b : Building) (q : EventQueue Event) (floor : Int) (dir : Direction) :
    EventQueue Event :=
  match requestHallCall b floor dir with
  | some event => q.push event
  | none => q

/-- A run in which hall calls enter only through `requestHallCall`:
each accepted request's event is later routed to the scheduler, whose
`handleHallCall` (both variants) registers the landing button via
`Building::registerHallCall`.  This folds that button-registering
effect of an arbitrary request list over the building. -/
def processHallRequests (b : Building) (reqs : List (Int × Direction)) : Building :=
  reqs.foldl
    (fun b2 fd =>
      match requestHallCall b2 fd.1 fd.2 with
      | some event => b2.registerHallCall event.floor event.direction
      | none => b2)
    b

/-! ## Helper lemmas -/

/-- Setting an index of a list to the value already stored there is a
no-op. -/
theorem list_set_self {α : Type} (l : List α) (i : Nat) (x : α) (h : l[i]? = some x) :
    l.set i x = l := by
  induction l generalizing i with
  | nil => simp at h
  | cons y ys ih =>
    cases i with
    | zero =>
      simp only [List.getElem?_cons_zero, Option.some_inj] at h
      simp [List.set, h]
    | succ n =>
      simp only [List.getElem?_cons_succ] at h
      simp only [List.set]
      rw [ih n h]

/-- Pushing a list of items appends it to the buffer. -/
theorem EventQueue.pushAll_items {T : Type} (q : EventQueue T) (xs : List T) :
    (q.pushAll xs).items = q.items ++ xs := by
  induction xs generalizing q with
  | nil => simp [EventQueue.pushAll]
  | cons x xs ih =>
    simp only [EventQueue.pushAll, List.foldl_cons] at ih ⊢
    rw [ih]
    simp [EventQueue.push]

/-- `pushAll` never touches the shutdown flag. -/
theorem EventQueue.pushAll_flag {T : Type} (q : EventQueue T) (xs : List T) :
    (q.pushAll xs).shutdownFlag = q.shutdownFlag := by
  induction xs generalizing q with
  | nil => rfl
  | cons x xs ih =>
    simp only [EventQueue.pushAll, List.foldl_cons] at ih ⊢
    rw [ih]
    rfl

/-- Draining as many pops as there are buffered items returns exactly
the buffered items, front first. -/
theorem EventQueue.drainPops_items {T : Type} (q : EventQueue T) :
    EventQueue.drainPops q.items.length q = q.items := by
  obtain ⟨items, flag⟩ := q
  induction items with
  | nil => rfl
  | cons e rest ih =>
    simp only [EventQueue.drainPops, EventQueue.pop, List.length_cons]
    simpa using ih

/-! ## C9 — event-queue shutdown semantics -/

/-- C9: after `shutdown()` has been signaled, every item pushed before
or after the shutdown is still delivered by `pop` in FIFO push order
(the buffer of a shut-down queue is the pushes in order, and draining
`pop` returns exactly that buffer front-first); `pop` returns the
"closed" result `none` exactly when the queue is drained; and a second
`shutdown()` leaves the queue unchanged (idempotence). -/
theorem C9_queue_shutdown_semantics {T : Type} :
    (∀ (q0 : EventQueue T) (xs ys : List T),
      (((q0.pushAll xs).shutdown).pushAll ys).items = q0.items ++ xs ++ ys) ∧
    (∀ q : EventQueue T, q.shutdownFlag = true →
      EventQueue.drainPops q.items.length q = q.items) ∧
    (∀ q : EventQueue T, q.shutdownFlag = true →
      (q.pop = some (none, q) ↔ q.items = [])) ∧
    (∀ q : EventQueue T, q.shutdown.shutdown = q.shutdown) := by
  refine ⟨?_, ?_, ?_, ?_⟩
  · intro q0 xs ys
    rw [EventQueue.pushAll_items]
    show (q0.pushAll xs).items ++ ys = q0.items ++ xs ++ ys
    rw [EventQueue.pushAll_items]
  · intro q _
    exact EventQueue.drainPops_items q
  · intro q hsd
    constructor
    · intro hpop
      cases hitems : q.items with
      | nil => rfl
      | cons e rest =>
        simp only [EventQueue.pop, hitems] at hpop
        exact absurd (congrArg Prod.fst (Option.some_inj.mp hpop)) (by simp)
    · intro hitems
      simp [EventQueue.pop, hitems, hsd]
  · intro q
    rfl

/-- Witness for C9 at a concrete queue: three items pushed around a
shutdown are all delivered in order, and the drained queue reports
closed. -/
theorem C9_queue_shutdown_semantics_witness :
    ((((EventQueue.empty Nat).pushAll [10, 20]).shutdown.pushAll [30]).items =
      [] ++ [10, 20] ++ [30]) ∧
    (((EventQueue.empty Nat).pushAll [10, 20]).shutdown.shutdownFlag = true ∧
      EventQueue.drainPops 2 ((EventQueue.empty Nat).pushAll [10, 20]).shutdown = [10, 20]) ∧
    ((⟨[], true⟩ : EventQueue Nat).pop = some (none, ⟨[], true⟩)) := by
  refine ⟨(C9_queue_shutdown_semantics).1 (EventQueue.empty Nat) [10, 20] [30], ⟨rfl, ?_⟩, ?_⟩
  · exact (C9_queue_shutdown_semantics).2.1 ((EventQueue.empty Nat).pushAll [10, 20]).shutdown rfl
  · exact ((C9_queue_shutdown_semantics).2.2.1 (⟨[], true⟩ : EventQueue Nat) rfl).mpr rfl

/-! ## C7 — the Idle invariant of the per-car state machine -/

/-- The per-car invariant of §8: an `Idle` car has direction `Idle`
and a zero timer. -/
def idleInv (e : Elevator) : Prop :=
  e.state = ElevatorState.Idle → e.direction = Direction.Idle ∧ e.ticksRemaining = 0

instance (e : Elevator) : Decidable (idleInv e) := by
  unfold idleInv; infer_instance

/-- C7: in every reachable state, a car whose state is `Idle` has
direction `Idle` and `ticksRemaining = 0`: the invariant holds for a
freshly constructed `Elevator` and is preserved by every one of the
state-transition operations (`startMoving`, `decrementTick`,
`arriveAtFloor`, `openDoors`, `setDoorsOpen`, `closeDoors`,
`setIdle`). -/
theorem C7_idle_invariant :
    (∀ id capacity startFloor : Int, idleInv (mkElevator id capacity startFloor)) ∧
    (∀ e : Elevator, idleInv e →
      (∀ (d : Direction) (t : Int), idleInv (e.startMoving d t)) ∧
      idleInv e.decrementTick ∧
      (∀ f : Int, idleInv (e.arriveAtFloor f)) ∧
      (∀ t : Int, idleInv (e.openDoors t)) ∧
      (∀ t : Int, idleInv (e.setDoorsOpen t)) ∧
      (∀ t : Int, idleInv (e.closeDoors t)) ∧
      idleInv e.setIdle) := by
  constructor
  · intro id capacity startFloor
    intro _
    exact ⟨rfl, rfl⟩
  · intro e he
    refine ⟨?_, ?_, ?_, ?_, ?_, ?_, ?_⟩
    · intro d t h
      exact absurd h (by simp [Elevator.startMoving])
    · intro h
      have hstate : e.state = ElevatorState.Idle := by
        unfold Elevator.decrementTick at h
        split at h <;> simpa using h
      obtain ⟨hdir, htick⟩ := he hstate
      unfold Elevator.decrementTick
      rw [htick]
      simp [hdir, htick]
    · intro f h
      exact absurd h (by simp [Elevator.arriveAtFloor])
    · intro t h
      exact absurd h (by simp [Elevator.openDoors])
    · intro t h
      exact absurd h (by simp [Elevator.setDoorsOpen])
    · intro t h
      exact absurd h (by simp [Elevator.closeDoors])
    · intro _
      exact ⟨rfl, rfl⟩

/-- Witness for C7 at a concrete car: the invariant holds after a full
idle-move-arrive-open-close-idle round trip from the initial state. -/
theorem C7_idle_invariant_witness :
    idleInv (mkElevator 0 6 1) ∧
    idleInv ((mkElevator 0 6 1).startMoving Direction.Up 2) ∧
    idleInv (mkElevator 0 6 1).decrementTick ∧
    idleInv (mkElevator 0 6 1).setIdle := by
  have h0 := C7_idle_invariant.1 0 6 1
  have h := C7_idle_invariant.2 (mkElevator 0 6 1) h0
  exact ⟨h0, h.1 Direction.Up 2, h.2.1, h.2.2.2.2.2.2⟩

/-! ## Building helper lemmas -/

/-- Reading back the elevator just modified. -/
theorem Building.getElevatorOpt_modify_self (b : Building) (id : Int) (g : Elevator → Elevator)
    (e : Elevator) (he : b.getElevatorOpt id = some e) :
    (b.modifyElevator id g).getElevatorOpt id = some (g e) := by
  unfold Building.getElevatorOpt at he
  by_cases hid : id < 0
  · simp [hid] at he
  · simp only [if_neg hid] at he
    obtain ⟨hlt, -⟩ := List.getElem?_eq_some.mp he
    unfold Building.modifyElevator Building.getElevatorOpt
    simp only [if_neg hid, he]
    exact List.getElem?_set_self hlt

/-- Modifying an elevator leaves the floors untouched. -/
theorem Building.modifyElevator_floors (b : Building) (id : Int) (g : Elevator → Elevator) :
    (b.modifyElevator id g).floors = b.floors := by
  unfold Building.modifyElevator
  split
  · rfl
  · split <;> rfl

/-- Modifying an elevator leaves the config untouched. -/
theorem Building.modifyElevator_config (b : Building) (id : Int) (g : Elevator → Elevator) :
    (b.modifyElevator id g).config = b.config := by
  unfold Building.modifyElevator
  split
  · rfl
  · split <;> rfl

/-- A modification that preserves a car's call set preserves every
car's call set pointwise. -/
theorem Building.getElevatorOpt_modify_carCalls (b : Building) (id : Int)
    (g : Elevator → Elevator) (hg : ∀ e, (g e).carCalls = e.carCalls) (id2 : Int) :
    ((b.modifyElevator id g).getElevatorOpt id2).map Elevator.carCalls =
      (b.getElevatorOpt id2).map Elevator.carCalls := by
  unfold Building.modifyElevator
  by_cases hid : id < 0
  · simp [hid]
  · simp only [if_neg hid]
    cases hget : b.elevators[id.toNat]? with
    | none => rfl
    | some e =>
      unfold Building.getElevatorOpt
      by_cases hid2 : id2 < 0
      · simp [hid2]
      · simp only [if_neg hid2]
        by_cases heq : id.toNat = id2.toNat
        · obtain ⟨hlt, -⟩ := List.getElem?_eq_some.mp hget
          rw [← heq, List.getElem?_set_self hlt, hget]
          simp [hg]
        · rw [List.getElem?_set_ne heq]

/-! ## C1 — the Moving → DoorsOpening transition -/

/-- C1 as amended: when a `Moving` car's timer reaches 0 on a tick of
`updateOneElevator` (the per-car body of
`SimulationEngine::updateElevators`), the driver advances
`currentFloor` by `+1` when the direction is `Up` and by `-1` when it
is `Down`, sets the state to `DoorsOpening` while leaving
`ticksRemaining` at `0` (the `doorOpenTicks` timer is loaded only on
the later `DoorsOpening → DoorsOpen` transition, not here), and pushes
an `ElevatorArrived` event carrying the car's id and the new floor. -/
theorem C1_moving_arrival (config : Config) (b : Building) (q : EventQueue Event) (i : Nat)
    (e : Elevator) (he : b.getElevatorOpt (Int.ofNat i) = some e)
    (hst : e.state = ElevatorState.Moving) (htr : e.ticksRemaining = 1)
    (_hdir : e.direction = Direction.Up ∨ e.direction = Direction.Down) :
    (updateOneElevator config b q i).1.getElevatorOpt (Int.ofNat i) =
      some {e with
        currentFloor :=
          if e.direction = Direction.Up then e.currentFloor + 1 else e.currentFloor - 1,
        state := ElevatorState.DoorsOpening,
        ticksRemaining := 0} ∧
    (updateOneElevator config b q i).2 = q.push
      ⟨EventType.ElevatorArrived,
       if e.direction = Direction.Up then e.currentFloor + 1 else e.currentFloor - 1,
       Int.ofNat i, Direction.Idle⟩ := by
  obtain ⟨eid, ecf, edir, est, ecc, epc, ecap, etr⟩ := e
  simp only [Elevator.state] at hst
  simp only [Elevator.ticksRemaining] at htr
  subst hst htr
  have hdec : (Elevator.mk eid ecf edir ElevatorState.Moving ecc epc ecap 1).decrementTick =
      Elevator.mk eid ecf edir ElevatorState.Moving ecc epc ecap 0 := by
    unfold Elevator.decrementTick
    norm_num
  unfold updateOneElevator
  rw [he]
  dsimp only
  rw [hdec]
  dsimp only
  rw [if_pos rfl]
  exact ⟨Building.getElevatorOpt_modify_self b (Int.ofNat i) _ _ he, rfl⟩

/-- Concrete one-car configuration used for the C1 and C6 scenarios:
`numFloors = 10`, `doorOpenTicks = 3`, `floorTravelTicks = 2`. -/
def cfgOne : Config := ⟨10, 1, 6, 500, 3, 2, ControllerType.Master⟩

/-- A car at floor 1, `Moving` `Up`, with one tick of travel left. -/
def carArriving : Elevator :=
  ⟨0, 1, Direction.Up, ElevatorState.Moving, [], 0, 6, 1⟩

/-- The one-car building housing `carArriving` (all buttons dark). -/
def bldgArriving : Building :=
  ⟨(List.range 10).map (fun i => mkFloor (Int.ofNat i + 1)), [carArriving], cfgOne⟩

/-- Counterexample to C1 as stated: on the arrival tick the car does
reach floor 2 in state `DoorsOpening`, but its `ticksRemaining` is `0`
and not `doorOpenTicks` (= 3) as the claim asserts
(`Elevator::arriveAtFloor` never reloads the timer). -/
theorem C1_counterexample :
    ((updateOneElevator cfgOne bldgArriving (EventQueue.empty Event) 0).1.getElevatorOpt 0).map
        Elevator.state = some ElevatorState.DoorsOpening ∧
    ((updateOneElevator cfgOne bldgArriving (EventQueue.empty Event) 0).1.getElevatorOpt 0).map
        Elevator.ticksRemaining = some 0 ∧
    cfgOne.doorOpenTicks = 3 ∧
    ((updateOneElevator cfgOne bldgArriving (EventQueue.empty Event) 0).1.getElevatorOpt 0).map
        Elevator.ticksRemaining ≠ some cfgOne.doorOpenTicks := by
  refine ⟨rfl, rfl, rfl, ?_⟩
  decide

/-- Witness for C1 as amended, at the concrete arriving car: floor 2
is reached with doors opening, timer 0, and the `ElevatorArrived`
event for car 0 / floor 2 is pushed. -/
theorem C1_moving_arrival_witness :
    (updateOneElevator cfgOne bldgArriving (EventQueue.empty Event) 0).1.getElevatorOpt
        (Int.ofNat 0) =
      some {carArriving with
        currentFloor :=
          if carArriving.direction = Direction.Up then carArriving.currentFloor + 1
          else carArriving.currentFloor - 1,
        state := ElevatorState.DoorsOpening,
        ticksRemaining := 0} ∧
    (updateOneElevator cfgOne bldgArriving (EventQueue.empty Event) 0).2 =
      (EventQueue.empty Event).push
        ⟨EventType.ElevatorArrived,
         if carArriving.direction = Direction.Up then carArriving.currentFloor + 1
         else carArriving.currentFloor - 1,
         Int.ofNat 0, Direction.Idle⟩ :=
  C1_moving_arrival cfgOne bldgArriving (EventQueue.empty Event) 0 carArriving rfl rfl rfl
    (Or.inl rfl)

/-! ## C6 — the DoorsClosing decision and the one-tick closing phase -/

/-- C6: `updateOneElevator` (the per-car body of
`SimulationEngine::updateElevators`) moves a `DoorsOpen` car whose
timer reaches 0 into `DoorsClosing` with `ticksRemaining = 1` — so
the closing phase lasts exactly one tick — and on the tick where a
`DoorsClosing` car's timer reaches 0 it pushes `DoorsClosed` for that
car when the car has any car calls or any hall call exists anywhere in
the building, and sets the car `Idle` otherwise. -/
theorem C6_doors_closing (config : Config) (b : Building) (q : EventQueue Event) (i : Nat)
    (e : Elevator) (he : b.getElevatorOpt (Int.ofNat i) = some e) :
    (e.state = ElevatorState.DoorsOpen → e.ticksRemaining = 1 →
      (updateOneElevator config b q i).1.getElevatorOpt (Int.ofNat i) =
        some {e with state := ElevatorState.DoorsClosing, ticksRemaining := 1} ∧
      (updateOneElevator config b q i).2 = q) ∧
    (e.state = ElevatorState.DoorsClosing → e.ticksRemaining = 1 →
      ((e.hasAnyCarCalls = true ∨ b.getAllHallCalls ≠ []) →
        (updateOneElevator config b q i).2 =
          q.push ⟨EventType.DoorsClosed, -1, Int.ofNat i, Direction.Idle⟩ ∧
        (updateOneElevator config b q i).1.getElevatorOpt (Int.ofNat i) =
          some {e with ticksRemaining := 0}) ∧
      (e.hasAnyCarCalls = false → b.getAllHallCalls = [] →
        (updateOneElevator config b q i).2 = q ∧
        (updateOneElevator config b q i).1.getElevatorOpt (Int.ofNat i) =
          some {e with state := ElevatorState.Idle, direction := Direction.Idle,
                       ticksRemaining := 0})) := by
  obtain ⟨eid, ecf, edir, est, ecc, epc, ecap, etr⟩ := e
  constructor
  · intro hst htr
    simp only [Elevator.state] at hst
    simp only [Elevator.ticksRemaining] at htr
    subst hst htr
    have hdec : (Elevator.mk eid ecf edir ElevatorState.DoorsOpen ecc epc ecap 1).decrementTick =
        Elevator.mk eid ecf edir ElevatorState.DoorsOpen ecc epc ecap 0 := by
      unfold Elevator.decrementTick
      norm_num
    unfold updateOneElevator
    rw [he]
    dsimp only
    rw [hdec]
    dsimp only
    rw [if_pos rfl]
    exact ⟨Building.getElevatorOpt_modify_self b (Int.ofNat i) _ _ he, rfl⟩
  · intro hst htr
    simp only [Elevator.state] at hst
    simp only [Elevator.ticksRemaining] at htr
    subst hst htr
    have hdec : (Elevator.mk eid ecf edir ElevatorState.DoorsClosing ecc epc ecap 1).decrementTick =
        Elevator.mk eid ecf edir ElevatorState.DoorsClosing ecc epc ecap 0 := by
      unfold Elevator.decrementTick
      norm_num
    constructor
    · intro hwork
      have hwork2 :
          (Elevator.mk eid ecf edir ElevatorState.DoorsClosing ecc epc ecap 0).hasAnyCarCalls =
            true ∨ b.getAllHallCalls ≠ [] := hwork
      unfold updateOneElevator
      rw [he]
      dsimp only
      rw [hdec]
      dsimp only
      rw [if_pos rfl, if_pos hwork2]
      exact ⟨rfl, Building.getElevatorOpt_modify_self b (Int.ofNat i) _ _ he⟩
    · intro hnc hnh
      have hwork2 :
          ¬((Elevator.mk eid ecf edir ElevatorState.DoorsClosing ecc epc ecap 0).hasAnyCarCalls =
            true ∨ b.getAllHallCalls ≠ []) := by
        simp only [Elevator.hasAnyCarCalls] at hnc ⊢
        simp [hnc, hnh]
      unfold updateOneElevator
      rw [he]
      dsimp only
      rw [hdec]
      dsimp only
      rw [if_pos rfl, if_neg hwork2]
      exact ⟨rfl, Building.getElevatorOpt_modify_self b (Int.ofNat i) _ _ he⟩

/-- A car at floor 2 with doors open and one tick left on the dwell
timer (no car calls). -/
def carDoorsOpen : Elevator :=
  ⟨0, 2, Direction.Up, ElevatorState.DoorsOpen, [], 0, 6, 1⟩

/-- The one-car building housing `carDoorsOpen` (all buttons dark). -/
def bldgDoorsOpen : Building :=
  ⟨(List.range 10).map (fun i => mkFloor (Int.ofNat i + 1)), [carDoorsOpen], cfgOne⟩

/-- A car at floor 2 closing its doors, timer at 1, with a pending car
call for floor 5. -/
def carClosingBusy : Elevator :=
  ⟨0, 2, Direction.Up, ElevatorState.DoorsClosing, [5], 0, 6, 1⟩

/-- The one-car building housing `carClosingBusy` (all buttons dark). -/
def bldgClosingBusy : Building :=
  ⟨(List.range 10).map (fun i => mkFloor (Int.ofNat i + 1)), [carClosingBusy], cfgOne⟩

/-- Witness for C6 at concrete cars: the doors-open car enters
`DoorsClosing` with a one-tick timer and, with a pending car call, the
closing car's tick pushes `DoorsClosed`. -/
theorem C6_doors_closing_witness :
    ((updateOneElevator cfgOne bldgDoorsOpen (EventQueue.empty Event) 0).1.getElevatorOpt
        (Int.ofNat 0) =
      some {carDoorsOpen with state := ElevatorState.DoorsClosing, ticksRemaining := 1}) ∧
    ((updateOneElevator cfgOne bldgClosingBusy (EventQueue.empty Event) 0).2 =
      (EventQueue.empty Event).push ⟨EventType.DoorsClosed, -1, Int.ofNat 0, Direction.Idle⟩) := by
  constructor
  · exact ((C6_doors_closing cfgOne bldgDoorsOpen (EventQueue.empty Event) 0 carDoorsOpen rfl).1
      rfl rfl).1
  · exact (((C6_doors_closing cfgOne bldgClosingBusy (EventQueue.empty Event) 0 carClosingBusy
      rfl).2 rfl rfl).1 (Or.inl rfl)).1

/-! ## C2 — the directional-penalty scenario (Scenario C) -/

/-- Scenario C configuration: `Master`, `numFloors = 10`, two cars. -/
def cfgTwo : Config := ⟨10, 2, 6, 500, 3, 2, ControllerType.Master⟩

/-- Car 0 of Scenario C: at floor 2, `Moving` `Up`, `carCalls = {7}`. -/
def carZeroUp : Elevator := ⟨0, 2, Direction.Up, ElevatorState.Moving, [7], 0, 6, 2⟩

/-- The Scenario C variant of car 0: `Moving` `Down` instead. -/
def carZeroDown : Elevator := ⟨0, 2, Direction.Down, ElevatorState.Moving, [7], 0, 6, 2⟩

/-- Car 1 of Scenario C: at floor 6, `Idle`. -/
def carOneIdle : Elevator := ⟨1, 6, Direction.Idle, ElevatorState.Idle, [], 0, 6, 0⟩

/-- Scenario C Master state with car 0 moving up. -/
def scenC_up : MasterController :=
  ⟨⟨(List.range 10).map (fun i => mkFloor (Int.ofNat i + 1)), [carZeroUp, carOneIdle], cfgTwo⟩, []⟩

/-- Scenario C Master state with car 0 moving down. -/
def scenC_down : MasterController :=
  ⟨⟨(List.range 10).map (fun i => mkFloor (Int.ofNat i + 1)), [carZeroDown, carOneIdle], cfgTwo⟩,
   []⟩

/-- Counterexample to C2 as stated: in the Scenario C state the claim
expects the hall call `(5, Up)` to be assigned to car 0 (on-the-way
cost 3), but `MasterController::handleHallCall` assigns it to car 1,
whose idle cost 1 is the strict minimum. -/
theorem C2_counterexample :
    mapFind (scenC_up.handleHallCall 5 Direction.Up).assignments (5, Direction.Up) = some 1 ∧
    (1 : Int) ≠ 0 := by
  constructor
  · rfl
  · decide

/-- C2 as amended: with the Scenario C costs — car 0 on-the-way cost
`3`, car 1 idle cost `1` — `handleHallCall(5, Up)` selects car 1 in
the `Moving Up` variant (1 < 3), and still selects car 1 in the
`Moving Down` variant (1 < 3 + 2·10 = 23), because selection always
takes the strict cost minimum. -/
theorem C2_directional_penalty :
    carZeroUp.costToServe 5 Direction.Up 10 = 3 ∧
    carOneIdle.costToServe 5 Direction.Up 10 = 1 ∧
    mapFind (scenC_up.handleHallCall 5 Direction.Up).assignments (5, Direction.Up) = some 1 ∧
    carZeroDown.costToServe 5 Direction.Up 10 = 23 ∧
    mapFind (scenC_down.handleHallCall 5 Direction.Up).assignments (5, Direction.Up) = some 1 := by
  refine ⟨?_, ?_, rfl, ?_, rfl⟩ <;> decide

/-! ## C3 — the distributed claim scenario (Scenario D) -/

/-- Scenario D configuration: `Distributed`, two cars. -/
def cfgDist : Config := ⟨10, 2, 6, 500, 3, 2, ControllerType.Distributed⟩

/-- Scenario D initial state: a fresh two-car building, empty claim
board; both cars `Idle` at floor 1. -/
def scenD0 : DistributedController := ⟨mkBuilding cfgDist, []⟩

/-- Scenario D after `handleHallCall(5, Up)` and one `tick()`. -/
def scenD1 : DistributedController := (scenD0.handleHallCall 5 Direction.Up).tick

/-- Scenario D after the further `handleHallCall(6, Up)` and a second
`tick()`. -/
def scenD2 : DistributedController := (scenD1.handleHallCall 6 Direction.Up).tick

/-- Counterexample to C3 as stated: after the second hall call and
tick, the claim for `(6, Up)` is held by car 0 — not by car 1 as the
claim asserts — because `tryClaimCalls` only skips a car that is both
non-idle and has car calls, and car 0 is `Moving` with an empty
car-call set, so it claims `(6, Up)` before car 1 is considered. -/
theorem C3_counterexample :
    mapFind scenD2.claimBoard (6, Direction.Up) = some 0 ∧
    ¬ mapFind scenD2.claimBoard (6, Direction.Up) = some 1 := by
  constructor
  · rfl
  · decide

/-- C3 as amended: the first tick gives car 0 the claim for `(5, Up)`
(lowest id claims first), and after the second hall call and tick car
0 — still at floor 1, `Moving` with no car calls, hence not skipped by
`tryClaimCalls` — also claims `(6, Up)`; car 1 holds no claim at all. -/
theorem C3_distributed_claims :
    mapFind scenD1.claimBoard (5, Direction.Up) = some 0 ∧
    mapFind scenD2.claimBoard (5, Direction.Up) = some 0 ∧
    mapFind scenD2.claimBoard (6, Direction.Up) = some 0 ∧
    scenD2.claimBoard.filter (fun kv => kv.2 = 1) = [] := by
  refine ⟨rfl, rfl, rfl, ?_⟩
  decide

/-! ## C4 — minimum-cost selection in the Master scheduler -/

/-- Looking up the key just inserted returns the inserted value. -/
theorem mapFind_mapInsert_self (m : CallMap) (k : HallKey) (v : Int) :
    mapFind (mapInsert k v m) k = some v := by
  induction m with
  | nil => simp [mapInsert, mapFind]
  | cons kv rest ih =>
    obtain ⟨k2, v2⟩ := kv
    by_cases hlt : keyLt k k2
    · simp [mapInsert, hlt, mapFind]
    · by_cases heq : k = k2
      · subst heq
        simp [mapInsert, hlt, mapFind]
      · unfold mapInsert
        simp only [if_neg hlt, if_neg heq]
        unfold mapFind
        rw [if_neg heq]
        exact ih

/-- Registering a hall call never changes the elevators. -/
theorem Building.registerHallCall_elevators (b : Building) (floor : Int) (dir : Direction) :
    (b.registerHallCall floor dir).elevators = b.elevators := by
  unfold Building.registerHallCall
  split
  · split
    · rfl
    · split <;> rfl
  · rfl

/-- Registering a hall call never changes the config. -/
theorem Building.registerHallCall_config (b : Building) (floor : Int) (dir : Direction) :
    (b.registerHallCall floor dir).config = b.config := by
  unfold Building.registerHallCall
  split
  · split
    · rfl
    · split <;> rfl
  · rfl

/-- Cost of elevator `j` (0 when no such elevator exists), matching
`MasterController::calculateCost`. -/
def costOf (b : Building) (j : Nat) (floor : Int) (dir : Direction) : Int :=
  match b.getElevatorOpt (Int.ofNat j) with
  | some e => e.costToServe floor dir b.config.numFloors
  | none => 0

/-- `selectAux` only looks at the elevators and the config, so two
buildings agreeing there select alike. -/
theorem selectAux_congr (b1 b2 : Building) (floor : Int) (dir : Direction)
    (helev : b1.elevators = b2.elevators) (hcfg : b1.config = b2.config) :
    ∀ (is : List Nat) (acc : Int × Option Int),
      MasterController.selectAux b1 floor dir is acc =
        MasterController.selectAux b2 floor dir is acc := by
  intro is
  induction is with
  | nil => intro acc; rfl
  | cons i rest ih =>
    intro acc
    obtain ⟨best, bestCost⟩ := acc
    unfold MasterController.selectAux
    unfold Building.getElevatorOpt
    rw [helev, hcfg]
    exact ih _

/-- `costOf` only looks at the elevators and the config. -/
theorem costOf_congr (b1 b2 : Building) (floor : Int) (dir : Direction)
    (helev : b1.elevators = b2.elevators) (hcfg : b1.config = b2.config) (j : Nat) :
    costOf b1 j floor dir = costOf b2 j floor dir := by
  unfold costOf Building.getElevatorOpt
  rw [helev, hcfg]

/-- The invariant carried through `selectElevator`'s loop: processing
the index range `[a, a+m)` starting from a best index `k0 < a` whose
cost is minimal so far (and strictly below every index before `k0`)
lands on the least-cost index of `[0, a+m)`, ties to the lowest id. -/
theorem selectAux_spec (b : Building) (floor : Int) (dir : Direction) :
    ∀ (m a k0 : Nat),
      k0 < a →
      (∀ j, j < a → costOf b k0 floor dir ≤ costOf b j floor dir) →
      (∀ j, j < k0 → costOf b k0 floor dir < costOf b j floor dir) →
      (∀ i ∈ List.range' a m, (b.getElevatorOpt (Int.ofNat i)).isSome = true) →
      ∃ k : Nat,
        MasterController.selectAux b floor dir (List.range' a m)
            (Int.ofNat k0, some (costOf b k0 floor dir)) =
          (Int.ofNat k, some (costOf b k floor dir)) ∧
        k < a + m ∧
        (∀ j, j < a + m → costOf b k floor dir ≤ costOf b j floor dir) ∧
        (∀ j, j < k → costOf b k floor dir < costOf b j floor dir) := by
  intro m
  induction m with
  | zero =>
    intro a k0 hka hmin hstrict _
    exact ⟨k0, rfl, by omega, fun j hj => hmin j (by omega), hstrict⟩
  | succ m ih =>
    intro a k0 hka hmin hstrict hsome
    have hsome_a : (b.getElevatorOpt (Int.ofNat a)).isSome = true := by
      apply hsome
      simp [List.mem_range']
    obtain ⟨ea, hea⟩ := Option.isSome_iff_exists.mp hsome_a
    have hcost_a : ea.costToServe floor dir b.config.numFloors = costOf b a floor dir := by
      unfold costOf
      rw [hea]
    have hrange : List.range' a (m + 1) = a :: List.range' (a + 1) m := rfl
    rw [hrange]
    unfold MasterController.selectAux
    rw [hea]
    dsimp only
    rw [hcost_a]
    by_cases hlt : costOf b a floor dir < costOf b k0 floor dir
    · rw [if_pos hlt]
      have := ih (a + 1) a (by omega)
        (fun j hj => by
          rcases Nat.lt_succ_iff_lt_or_eq.mp hj with hj2 | hj2
          · exact le_of_lt (lt_of_lt_of_le hlt (hmin j hj2))
          · subst hj2; exact le_refl _)
        (fun j hj => lt_of_lt_of_le hlt (hmin j hj))
        (fun i hi => hsome i (by
          rw [hrange]
          exact List.mem_cons_of_mem a hi))
      obtain ⟨k, hk, hk2, hk3, hk4⟩ := this
      exact ⟨k, hk, by omega, fun j hj => hk3 j (by omega), hk4⟩
    · rw [if_neg hlt]
      have := ih (a + 1) k0 (by omega)
        (fun j hj => by
          rcases Nat.lt_succ_iff_lt_or_eq.mp hj with hj2 | hj2
          · exact hmin j hj2
          · subst hj2; omega)
        hstrict
        (fun i hi => hsome i (by
          rw [hrange]
          exact List.mem_cons_of_mem a hi))
      obtain ⟨k, hk, hk2, hk3, hk4⟩ := this
      exact ⟨k, hk, by omega, fun j hj => hk3 j (by omega), hk4⟩

/-- Specification of `MasterController::selectElevator` under a
well-formed building with at least one elevator: the result is the
valid id whose cost is minimal, ties broken by the lowest id. -/
theorem selectElevator_spec (b : Building) (floor : Int) (dir : Direction)
    (hwf : b.elevators.length = b.config.numElevators.toNat)
    (hn : 0 < b.config.numElevators) :
    ∃ k : Nat,
      MasterController.selectElevator b floor dir = Int.ofNat k ∧
      k < b.config.numElevators.toNat ∧
      (∀ j, j < b.config.numElevators.toNat →
        costOf b k floor dir ≤ costOf b j floor dir) ∧
      (∀ j, j < k → costOf b k floor dir < costOf b j floor dir) := by
  have hn2 : 0 < b.config.numElevators.toNat := by omega
  obtain ⟨m, hm⟩ : ∃ m, b.config.numElevators.toNat = m + 1 :=
    ⟨b.config.numElevators.toNat - 1, by omega⟩
  have hsome : ∀ i : Nat, i < b.config.numElevators.toNat →
      (b.getElevatorOpt (Int.ofNat i)).isSome = true := by
    intro i hi
    unfold Building.getElevatorOpt
    rw [if_neg (by simp)]
    have hlen : (Int.ofNat i).toNat < b.elevators.length := by
      rw [hwf]
      simpa using hi
    rw [List.getElem?_eq_getElem hlen]
    rfl
  have hsome0 := hsome 0 hn2
  obtain ⟨e0, he0⟩ := Option.isSome_iff_exists.mp hsome0
  have hcost0 : e0.costToServe floor dir b.config.numFloors = costOf b 0 floor dir := by
    unfold costOf
    rw [he0]
  unfold MasterController.selectElevator
  rw [hm]
  rw [List.range_eq_range']
  have hrange2 : List.range' 0 (m + 1) = 0 :: List.range' 1 m := rfl
  rw [hrange2]
  unfold MasterController.selectAux
  rw [he0]
  dsimp only
  rw [hcost0]
  have := selectAux_spec b floor dir m 1 0 (by omega)
    (fun j hj => by
      have : j = 0 := by omega
      subst this
      exact le_refl _)
    (fun j hj => by omega)
    (fun i hi => hsome i (by
      have := List.mem_range'_1.mp hi
      omega))
  obtain ⟨k, hk, hk2, hk3, hk4⟩ := this
  refine ⟨k, ?_, by omega, fun j hj => hk3 j (by omega), hk4⟩
  rw [hk]

/-- Dispatching never changes the assignment table. -/
theorem MasterController.dispatch_assignments (s : MasterController) (elevatorId : Int) :
    (s.dispatchElevator elevatorId).assignments = s.assignments := by
  unfold MasterController.dispatchElevator
  cases hget : s.building.getElevatorOpt elevatorId with
  | none => rfl
  | some e =>
    dsimp only
    by_cases hst : e.state ≠ ElevatorState.Idle
    · rw [if_pos hst]
    · rw [if_neg hst]
      cases hmin : MasterController.minByDist e.currentFloor
          (List.foldl (fun ds kv => if kv.2 = elevatorId then setInsert kv.1.1 ds else ds)
            e.carCalls s.assignments) with
      | none => rfl
      | some target =>
        dsimp only
        by_cases htgt : target = e.currentFloor
        · rw [if_pos htgt]
        · rw [if_neg htgt]

/-- C4: a hall call `(floor, dir)` that is not yet assigned is, under
`MasterController::handleHallCall` on a well-formed building with at
least one car, recorded in `assignments` as mapped to the car of
minimum `costToServe`, ties broken by the lowest car id. -/
theorem C4_min_cost_assignment (s : MasterController) (floor : Int) (dir : Direction)
    (hkey : mapFind s.assignments (floor, dir) = none)
    (hwf : s.building.elevators.length = s.building.config.numElevators.toNat)
    (hn : 0 < s.building.config.numElevators) :
    ∃ k : Nat,
      k < s.building.config.numElevators.toNat ∧
      mapFind (s.handleHallCall floor dir).assignments (floor, dir) = some (Int.ofNat k) ∧
      (∀ j, j < s.building.config.numElevators.toNat →
        costOf s.building k floor dir ≤ costOf s.building j floor dir) ∧
      (∀ j, j < k → costOf s.building k floor dir < costOf s.building j floor dir) := by
  have helev := Building.registerHallCall_elevators s.building floor dir
  have hcfg := Building.registerHallCall_config s.building floor dir
  have hspec := selectElevator_spec (s.building.registerHallCall floor dir) floor dir
    (by rw [helev, hcfg]; exact hwf) (by rw [hcfg]; exact hn)
  obtain ⟨k, hsel, hk2, hk3, hk4⟩ := hspec
  refine ⟨k, by rw [hcfg] at hk2; exact hk2, ?_, ?_, ?_⟩
  · unfold MasterController.handleHallCall
    rw [if_neg (by simp [hkey])]
    dsimp only
    rw [hsel, if_pos (show Int.ofNat k ≥ 0 by simp)]
    rw [MasterController.dispatch_assignments]
    exact mapFind_mapInsert_self _ _ _
  · intro j hj
    have := hk3 j (by rw [hcfg] at *; exact hj)
    rwa [costOf_congr _ s.building floor dir helev hcfg k,
         costOf_congr _ s.building floor dir helev hcfg j] at this
  · intro j hj
    have := hk4 j hj
    rwa [costOf_congr _ s.building floor dir helev hcfg k,
         costOf_congr _ s.building floor dir helev hcfg j] at this

/-- Scenario B state: `Master`, two cars both `Idle` at floor 1. -/
def scenB : MasterController := ⟨mkBuilding cfgTwo, []⟩

/-- Witness for C4, the literal Scenario B: both cars idle at floor 1
cost 7 for the hall call `(8, Up)`, the tie goes to car 0
(`assignments[(8, Up)] = 0`), and car 1 remains `Idle`. -/
theorem C4_min_cost_assignment_witness :
    (mapFind scenB.assignments (8, Direction.Up) = none ∧
      scenB.building.elevators.length = scenB.building.config.numElevators.toNat ∧
      0 < scenB.building.config.numElevators) ∧
    mapFind (scenB.handleHallCall 8 Direction.Up).assignments (8, Direction.Up) = some 0 ∧
    ((scenB.handleHallCall 8 Direction.Up).building.getElevatorOpt 1).map Elevator.state =
      some ElevatorState.Idle := by
  refine ⟨⟨rfl, by decide, by decide⟩, ?_, rfl⟩
  obtain ⟨k, hk1, hk2, hk3, hk4⟩ :=
    C4_min_cost_assignment scenB 8 Direction.Up rfl (by decide) (by decide)
  have h2 : scenB.building.config.numElevators.toNat = 2 := rfl
  rw [h2] at hk1
  have hcosts : ∀ j, j < 2 → costOf scenB.building j 8 Direction.Up = 7 := by
    decide
  have hk0 : k = 0 := by
    by_contra hne
    have hk : k = 1 := by omega
    subst hk
    have := hk4 0 (by omega)
    rw [hcosts 0 (by decide), hcosts 1 (by decide)] at this
    omega
  subst hk0
  exact hk2

/-! ## C8 — ingress validation of requestHallCall -/

/-- Registering the hall call `(f, d)` does not change the reading of
any other button `(g, gd)`. -/
theorem Building.hasHallCall_register_ne (b : Building) (f : Int) (d : Direction)
    (g : Int) (gd : Direction) (hne : ¬(f = g ∧ d = gd)) :
    (b.registerHallCall f d).hasHallCall g gd = b.hasHallCall g gd := by
  unfold Building.registerHallCall
  by_cases hvf : b.isValidFloor f
  · rw [if_pos hvf]
    cases hget : b.floors[(f - 1).toNat]? with
    | none => rfl
    | some fl =>
      obtain ⟨hlt, -⟩ := List.getElem?_eq_some.mp hget
      cases d with
      | Idle => rfl
      | Up =>
        dsimp only
        unfold Building.hasHallCall Building.isValidFloor
        dsimp only
        by_cases hvg : 1 ≤ g ∧ g ≤ b.config.numFloors
        · simp only [if_pos hvg]
          by_cases hidx : (f - 1).toNat = (g - 1).toNat
          · have hfg : f = g := by
              unfold Building.isValidFloor at hvf
              omega
            rw [← hidx, List.getElem?_set_self hlt, hget]
            cases gd with
            | Up => exact absurd ⟨hfg, rfl⟩ hne
            | Down => rfl
            | Idle => rfl
          · rw [List.getElem?_set_ne hidx]
        · simp only [if_neg hvg]
      | Down =>
        dsimp only
        unfold Building.hasHallCall Building.isValidFloor
        dsimp only
        by_cases hvg : 1 ≤ g ∧ g ≤ b.config.numFloors
        · simp only [if_pos hvg]
          by_cases hidx : (f - 1).toNat = (g - 1).toNat
          · have hfg : f = g := by
              unfold Building.isValidFloor at hvf
              omega
            rw [← hidx, List.getElem?_set_self hlt, hget]
            cases gd with
            | Up => rfl
            | Down => exact absurd ⟨hfg, rfl⟩ hne
            | Idle => rfl
          · rw [List.getElem?_set_ne hidx]
        · simp only [if_neg hvg]
  · rw [if_neg hvf]

/-- What a successful `requestHallCall` guarantees: the event is the
hall-call event for `(f, d)` and every validation condition held. -/
theorem requestHallCall_eq_some (b : Building) (f : Int) (d : Direction) (ev : Event)
    (h : requestHallCall b f d = some ev) :
    ev = mkHallCallEvent f d ∧ b.isValidFloor f ∧ d ≠ Direction.Idle ∧
      ¬(f = 1 ∧ d = Direction.Down) ∧ ¬(f = b.config.numFloors ∧ d = Direction.Up) := by
  unfold requestHallCall at h
  split at h
  · simp at h
  · split at h
    · simp at h
    · split at h
      · simp at h
      · split at h
        · simp at h
        · next h1 h2 h3 h4 =>
          exact ⟨(Option.some_inj.mp h).symm, not_not.mp h1, h2, h3, h4⟩

/-- Processing a request list never changes the config. -/
theorem processHallRequests_config (reqs : List (Int × Direction)) :
    ∀ b : Building, (processHallRequests b reqs).config = b.config := by
  induction reqs with
  | nil => intro b; rfl
  | cons fd rest ih =>
    intro b
    unfold processHallRequests
    rw [List.foldl_cons]
    cases hreq : requestHallCall b fd.1 fd.2 with
    | none => exact ih b
    | some ev =>
      have := ih (b.registerHallCall ev.floor ev.direction)
      unfold processHallRequests at this
      rw [this]
      exact Building.registerHallCall_config b ev.floor ev.direction

/-- The boundary buttons stay dark across any request list fed
through `requestHallCall`. -/
theorem processHallRequests_no_boundary (reqs : List (Int × Direction)) :
    ∀ b : Building,
      b.hasHallCall 1 Direction.Down = false →
      b.hasHallCall b.config.numFloors Direction.Up = false →
      (processHallRequests b reqs).hasHallCall 1 Direction.Down = false ∧
      (processHallRequests b reqs).hasHallCall b.config.numFloors Direction.Up = false := by
  induction reqs with
  | nil => intro b h1 h2; exact ⟨h1, h2⟩
  | cons fd rest ih =>
    intro b h1 h2
    unfold processHallRequests
    rw [List.foldl_cons]
    cases hreq : requestHallCall b fd.1 fd.2 with
    | none => exact ih b h1 h2
    | some ev =>
      obtain ⟨hev, hvalid, hnidle, hb1, hbN⟩ := requestHallCall_eq_some b fd.1 fd.2 ev hreq
      subst hev
      dsimp only [mkHallCallEvent]
      have hreg1 : (b.registerHallCall fd.1 fd.2).hasHallCall 1 Direction.Down = false := by
        rw [Building.hasHallCall_register_ne b fd.1 fd.2 1 Direction.Down hb1]
        exact h1
      have hcfg := Building.registerHallCall_config b fd.1 fd.2
      have hregN : (b.registerHallCall fd.1 fd.2).hasHallCall
          (b.registerHallCall fd.1 fd.2).config.numFloors Direction.Up = false := by
        rw [hcfg]
        rw [Building.hasHallCall_register_ne b fd.1 fd.2 b.config.numFloors Direction.Up hbN]
        exact h2
      have := ih (b.registerHallCall fd.1 fd.2) hreg1 hregN
      rw [hcfg] at this
      exact this

/-- C8: `requestHallCall(floor, dir)` produces a `HallCall` event iff
`1 ≤ floor ≤ numFloors`, `dir` is `Up` or `Down`, and neither
`(floor = 1, Down)` nor `(floor = numFloors, Up)` holds; an invalid
request leaves the event queue untouched (and never reaches the
building); consequently, in a run in which hall calls enter only
through `requestHallCall` and are registered by the scheduler, floor 1
never shows `downRequested` and floor `numFloors` never shows
`upRequested`. -/
theorem C8_request_validation (b : Building) (floor : Int) (dir : Direction) :
    ((requestHallCall b floor dir).isSome = true ↔
      (1 ≤ floor ∧ floor ≤ b.config.numFloors ∧
       (dir = Direction.Up ∨ dir = Direction.Down) ∧
       ¬(floor = 1 ∧ dir = Direction.Down) ∧
       ¬(floor = b.config.numFloors ∧ dir = Direction.Up))) ∧
    (requestHallCall b floor dir = none →
      ∀ q : EventQueue Event, requestHallCallQ b q floor dir = q) ∧
    (∀ reqs : List (Int × Direction),
      b.hasHallCall 1 Direction.Down = false →
      b.hasHallCall b.config.numFloors Direction.Up = false →
      (processHallRequests b reqs).hasHallCall 1 Direction.Down = false ∧
      (processHallRequests b reqs).hasHallCall b.config.numFloors Direction.Up = false) := by
  refine ⟨?_, ?_, fun reqs => processHallRequests_no_boundary reqs b⟩
  · constructor
    · intro h
      unfold requestHallCall at h
      split at h
      · simp at h
      · split at h
        · simp at h
        · split at h
          · simp at h
          · split at h
            · simp at h
            · next h1 h2 h3 h4 =>
              have hvalid : b.isValidFloor floor := not_not.mp h1
              unfold Building.isValidFloor at hvalid
              refine ⟨hvalid.1, hvalid.2, ?_, h3, h4⟩
              cases dir with
              | Up => exact Or.inl rfl
              | Down => exact Or.inr rfl
              | Idle => exact absurd rfl h2
    · intro hcond
      obtain ⟨ha1, ha2, had, h3, h4⟩ := hcond
      have hvalid : b.isValidFloor floor := by
        unfold Building.isValidFloor
        exact ⟨ha1, ha2⟩
      have hnidle : ¬ dir = Direction.Idle := by
        rcases had with hd | hd <;> simp [hd]
      unfold requestHallCall
      rw [if_neg (not_not_intro hvalid), if_neg hnidle, if_neg h3, if_neg h4]
      rfl
  · intro hnone q
    unfold requestHallCallQ
    rw [hnone]

/-- Witness for C8 at concrete inputs on the fresh ten-floor building:
the valid call `(3, Up)` is accepted, the boundary call `(10, Up)` is
rejected leaving the queue untouched, and a mixed request run
(including the invalid `(1, Down)` and `(10, Up)`) leaves floor 1's
down button and floor 10's up button dark. -/
theorem C8_request_validation_witness :
    ((requestHallCall (mkBuilding cfgOne) 3 Direction.Up).isSome = true) ∧
    (requestHallCallQ (mkBuilding cfgOne) (EventQueue.empty Event) 10 Direction.Up =
      EventQueue.empty Event) ∧
    ((processHallRequests (mkBuilding cfgOne)
        [(1, Direction.Down), (3, Direction.Up), (10, Direction.Up),
         (10, Direction.Down)]).hasHallCall 1 Direction.Down = false ∧
      (processHallRequests (mkBuilding cfgOne)
        [(1, Direction.Down), (3, Direction.Up), (10, Direction.Up),
         (10, Direction.Down)]).hasHallCall
          (mkBuilding cfgOne).config.numFloors Direction.Up = false) := by
  refine ⟨?_, ?_, ?_⟩
  · exact (C8_request_validation (mkBuilding cfgOne) 3 Direction.Up).1.mpr
      (by refine ⟨by decide, by decide, Or.inl rfl, by decide, by decide⟩)
  · exact (C8_request_validation (mkBuilding cfgOne) 10 Direction.Up).2.1 (by decide)
      (EventQueue.empty Event)
  · exact (C8_request_validation (mkBuilding cfgOne) 1 Direction.Up).2.2
      [(1, Direction.Down), (3, Direction.Up), (10, Direction.Up), (10, Direction.Down)]
      (by decide) (by decide)

/-! ## C10 — handleHallCall performs no floor validation -/

/-- Registering an invalid floor is a silent no-op. -/
theorem Building.registerHallCall_invalid (b : Building) (floor : Int) (dir : Direction)
    (h : ¬ b.isValidFloor floor) : b.registerHallCall floor dir = b := by
  unfold Building.registerHallCall
  rw [if_neg h]

/-- C10: `MasterController::handleHallCall` does not validate its
floor argument.  For a floor outside `[1, numFloors]` and a fresh
assignment table, the call still records
`assignments[(floor, dir)] = selectElevator(...)` (a valid car id) and,
when the selected car is idle with no car calls and stands on a real
floor, dispatches it `Moving` toward the non-existent floor, while the
building's floor buttons are untouched
(`Building::registerHallCall` silently ignores the invalid floor). -/
theorem C10_no_floor_validation (s : MasterController) (floor : Int) (dir : Direction)
    (e : Elevator)
    (hinv : floor < 1 ∨ s.building.config.numFloors < floor)
    (_hdir : dir = Direction.Up ∨ dir = Direction.Down)
    (hempty : s.assignments = [])
    (hwf : s.building.elevators.length = s.building.config.numElevators.toNat)
    (hn : 0 < s.building.config.numElevators)
    (he : s.building.getElevatorOpt (MasterController.selectElevator s.building floor dir) =
      some e)
    (hidle : e.state = ElevatorState.Idle) (hcc : e.carCalls = [])
    (hcur : 1 ≤ e.currentFloor ∧ e.currentFloor ≤ s.building.config.numFloors) :
    0 ≤ MasterController.selectElevator s.building floor dir ∧
    (s.handleHallCall floor dir).assignments =
      [((floor, dir), MasterController.selectElevator s.building floor dir)] ∧
    (s.handleHallCall floor dir).building.floors = s.building.floors ∧
    (s.handleHallCall floor dir).building.getElevatorOpt
        (MasterController.selectElevator s.building floor dir) =
      some (e.startMoving (if floor > e.currentFloor then Direction.Up else Direction.Down)
        s.building.config.floorTravelTicks) := by
  have hreg : s.building.registerHallCall floor dir = s.building := by
    apply Building.registerHallCall_invalid
    unfold Building.isValidFloor
    omega
  obtain ⟨k, hselk, -, -, -⟩ := selectElevator_spec s.building floor dir hwf hn
  have hsel0 : 0 ≤ MasterController.selectElevator s.building floor dir := by
    rw [hselk]
    simp
  have hhhc : s.handleHallCall floor dir =
      MasterController.dispatchElevator
        ⟨s.building, [((floor, dir), MasterController.selectElevator s.building floor dir)]⟩
        (MasterController.selectElevator s.building floor dir) := by
    unfold MasterController.handleHallCall
    rw [if_neg (by rw [hempty]; simp [mapFind])]
    dsimp only
    rw [hreg]
    rw [if_pos (by rw [hselk]; simp)]
    rw [hempty]
    rfl
  have hne : floor ≠ e.currentFloor := by omega
  have hdisp : MasterController.dispatchElevator
      ⟨s.building, [((floor, dir), MasterController.selectElevator s.building floor dir)]⟩
      (MasterController.selectElevator s.building floor dir) =
    ⟨s.building.modifyElevator (MasterController.selectElevator s.building floor dir)
        (fun e2 => e2.startMoving
          (if floor > e.currentFloor then Direction.Up else Direction.Down)
          s.building.config.floorTravelTicks),
     [((floor, dir), MasterController.selectElevator s.building floor dir)]⟩ := by
    unfold MasterController.dispatchElevator
    rw [he]
    dsimp only
    rw [if_neg (by simp [hidle])]
    rw [hcc]
    simp only [List.foldl_cons, List.foldl_nil]
    rw [if_pos trivial]
    dsimp only [MasterController.minByDist, setInsert, List.foldl_nil]
    rw [if_neg (fun hx => hne hx)]
  rw [hhhc, hdisp]
  refine ⟨hsel0, rfl, Building.modifyElevator_floors _ _ _, ?_⟩
  exact Building.getElevatorOpt_modify_self _ _ _ e he

/-- The C10 witness state: one car idle at floor 1 in a ten-floor
Master building with an empty assignment table. -/
def scenInvalid : MasterController := ⟨mkBuilding cfgOne, []⟩

/-- Witness for C10 at the concrete out-of-range hall call `(15, Up)`
on a ten-floor building: the entry `assignments[(15, Up)] = 0` is
inserted, car 0 starts `Moving` `Up` toward floor 15, and no floor
button changes. -/
theorem C10_no_floor_validation_witness :
    MasterController.selectElevator scenInvalid.building 15 Direction.Up = 0 ∧
    (scenInvalid.handleHallCall 15 Direction.Up).assignments =
      [((15, Direction.Up), MasterController.selectElevator scenInvalid.building 15
          Direction.Up)] ∧
    (scenInvalid.handleHallCall 15 Direction.Up).building.floors =
      scenInvalid.building.floors ∧
    (scenInvalid.handleHallCall 15 Direction.Up).building.getElevatorOpt
        (MasterController.selectElevator scenInvalid.building 15 Direction.Up) =
      some ((mkElevator 0 6 1).startMoving
        (if (15 : Int) > (mkElevator 0 6 1).currentFloor then Direction.Up else Direction.Down)
        scenInvalid.building.config.floorTravelTicks) := by
  have h := C10_no_floor_validation scenInvalid 15 Direction.Up (mkElevator 0 6 1)
    (by decide) (Or.inl rfl) rfl (by decide) (by decide) rfl rfl rfl (by decide)
  exact ⟨rfl, h.2.1, h.2.2.1, h.2.2.2⟩

/-! ## C5 — idempotence of the request handlers -/

/-- Inserting into the set twice is the same as inserting once. -/
theorem setInsert_idem (x : Int) (l : List Int) :
    setInsert x (setInsert x l) = setInsert x l := by
  induction l with
  | nil => simp [setInsert]
  | cons y ys ih =>
    by_cases h1 : x < y
    · rw [setInsert, if_pos h1, setInsert, if_neg (lt_irrefl x), if_pos rfl]
    · by_cases h2 : x = y
      · rw [setInsert, if_neg h1, if_pos h2, setInsert, if_neg h1, if_pos h2]
      · rw [setInsert, if_neg h1, if_neg h2, setInsert, if_neg h1, if_neg h2, ih]

/-- The set is never empty after an insertion. -/
theorem setInsert_ne_nil (x : Int) (l : List Int) : setInsert x l ≠ [] := by
  cases l with
  | nil => simp [setInsert]
  | cons y ys =>
    unfold setInsert
    split
    · simp
    · split <;> simp

/-- Inserting into a strictly sorted set yields exactly one copy. -/
theorem setInsert_count_self (x : Int) (l : List Int) (hs : l.Sorted (· < ·)) :
    (setInsert x l).count x = 1 := by
  induction l with
  | nil => simp [setInsert]
  | cons y ys ih =>
    rw [List.sorted_cons] at hs
    obtain ⟨hy, hys⟩ := hs
    by_cases h1 : x < y
    · rw [setInsert, if_pos h1]
      have hnot : x ∉ y :: ys := by
        intro hmem
        rcases List.mem_cons.mp hmem with hmem | hmem
        · omega
        · have := hy x hmem
          omega
      rw [List.count_cons_self, List.count_eq_zero.mpr hnot]
    · by_cases h2 : x = y
      · subst h2
        rw [setInsert, if_neg h1, if_pos rfl]
        have hnot : x ∉ ys := by
          intro hmem
          have := hy x hmem
          omega
        rw [List.count_cons_self, List.count_eq_zero.mpr hnot]
      · rw [setInsert, if_neg h1, if_neg h2]
        rw [List.count_cons_of_ne (fun hx => h2 hx) , ih hys]
        -- note: count_cons_of_ne orientation checked below

/-- A function with `g (g x) = g x` collapses any positive iterate. -/
theorem iterate_of_idem {α : Type} (g : α → α) (hg : ∀ x : α, g (g x) = g x) :
    ∀ (n : Nat) (s : α), g^[n + 1] s = g s := by
  intro n
  induction n with
  | zero => intro s; rfl
  | succ m ih =>
    intro s
    rw [Function.iterate_succ_apply' g (m + 1) s, ih s, hg s]

/-- Registering the same hall call twice equals registering it once
(the pressed button is simply pressed again). -/
theorem Building.registerHallCall_idem (b : Building) (f : Int) (d : Direction) :
    (b.registerHallCall f d).registerHallCall f d = b.registerHallCall f d := by
  by_cases hv : b.isValidFloor f
  · cases hget : b.floors[(f - 1).toNat]? with
    | none =>
      have h1 : b.registerHallCall f d = b := by
        unfold Building.registerHallCall
        rw [if_pos hv, hget]
      rw [h1, h1]
    | some fl =>
      obtain ⟨hlt, -⟩ := List.getElem?_eq_some.mp hget
      cases d with
      | Idle =>
        have h1 : b.registerHallCall f Direction.Idle = b := by
          unfold Building.registerHallCall
          rw [if_pos hv, hget]
        rw [h1, h1]
      | Up =>
        have h1 : b.registerHallCall f Direction.Up =
            {b with floors := b.floors.set (f - 1).toNat fl.pressUpButton} := by
          unfold Building.registerHallCall
          rw [if_pos hv, hget]
        rw [h1]
        have hv2 : ({b with floors := b.floors.set (f - 1).toNat fl.pressUpButton} :
            Building).isValidFloor f := hv
        have hget2 : ({b with floors := b.floors.set (f - 1).toNat fl.pressUpButton} :
            Building).floors[(f - 1).toNat]? = some fl.pressUpButton := by
          dsimp only
          exact List.getElem?_set_self hlt
        unfold Building.registerHallCall
        rw [if_pos hv2, hget2]
        dsimp only
        rw [show fl.pressUpButton.pressUpButton = fl.pressUpButton from rfl, List.set_set]
      | Down =>
        have h1 : b.registerHallCall f Direction.Down =
            {b with floors := b.floors.set (f - 1).toNat fl.pressDownButton} := by
          unfold Building.registerHallCall
          rw [if_pos hv, hget]
        rw [h1]
        have hv2 : ({b with floors := b.floors.set (f - 1).toNat fl.pressDownButton} :
            Building).isValidFloor f := hv
        have hget2 : ({b with floors := b.floors.set (f - 1).toNat fl.pressDownButton} :
            Building).floors[(f - 1).toNat]? = some fl.pressDownButton := by
          dsimp only
          exact List.getElem?_set_self hlt
        unfold Building.registerHallCall
        rw [if_pos hv2, hget2]
        dsimp only
        rw [show fl.pressDownButton.pressDownButton = fl.pressDownButton from rfl, List.set_set]
  · have h1 : b.registerHallCall f d = b := by
      unfold Building.registerHallCall
      rw [if_neg hv]
    rw [h1, h1]

/-- A hall call whose key is already tracked is ignored by the Master. -/
theorem MasterController.handleHallCall_present (s : MasterController) (floor : Int)
    (dir : Direction) (h : mapFind s.assignments (floor, dir) ≠ none) :
    s.handleHallCall floor dir = s := by
  unfold MasterController.handleHallCall
  rw [if_pos h]

/-- The Master's `handleHallCall` is idempotent: the second call sees
either the recorded assignment (and is ignored) or, when no elevator
exists, repeats the idempotent button registration. -/
theorem masterHandleHallCall_idem (s : MasterController) (floor : Int)
    (dir : Direction) :
    (s.handleHallCall floor dir).handleHallCall floor dir = s.handleHallCall floor dir := by
  by_cases hk : mapFind s.assignments (floor, dir) = none
  · have hexp : s.handleHallCall floor dir =
        (if MasterController.selectElevator (s.building.registerHallCall floor dir) floor dir
              ≥ 0 then
          MasterController.dispatchElevator
            ⟨s.building.registerHallCall floor dir,
             mapInsert (floor, dir)
               (MasterController.selectElevator (s.building.registerHallCall floor dir) floor
                 dir) s.assignments⟩
            (MasterController.selectElevator (s.building.registerHallCall floor dir) floor dir)
         else ⟨s.building.registerHallCall floor dir, s.assignments⟩) := by
      unfold MasterController.handleHallCall
      rw [if_neg (by simp [hk])]
    by_cases hge : MasterController.selectElevator (s.building.registerHallCall floor dir)
        floor dir ≥ 0
    · rw [if_pos hge] at hexp
      apply MasterController.handleHallCall_present
      rw [hexp, MasterController.dispatch_assignments, mapFind_mapInsert_self]
      simp
    · rw [if_neg hge] at hexp
      rw [hexp]
      unfold MasterController.handleHallCall
      rw [if_neg (by simp [hk])]
      dsimp only
      rw [Building.registerHallCall_idem]
      rw [if_neg hge]
  · have h1 := MasterController.handleHallCall_present s floor dir hk
    rw [h1, h1]

/-- The Distributed `handleHallCall` is idempotent. -/
theorem distHandleHallCall_idem (s : DistributedController) (floor : Int)
    (dir : Direction) :
    (s.handleHallCall floor dir).handleHallCall floor dir = s.handleHallCall floor dir := by
  unfold DistributedController.handleHallCall
  dsimp only
  rw [Building.registerHallCall_idem]
  by_cases hk : mapFind s.claimBoard (floor, dir) = none
  · rw [if_pos hk]
    rw [if_neg (by rw [mapFind_mapInsert_self]; simp)]
  · rw [if_neg hk, if_neg hk]

/-- Dispatching never changes any car's call set. -/
theorem MasterController.dispatch_carCalls (s : MasterController) (id id2 : Int) :
    ((s.dispatchElevator id).building.getElevatorOpt id2).map Elevator.carCalls =
      (s.building.getElevatorOpt id2).map Elevator.carCalls := by
  unfold MasterController.dispatchElevator
  cases hget : s.building.getElevatorOpt id with
  | none => rfl
  | some e =>
    dsimp only
    by_cases hst : e.state ≠ ElevatorState.Idle
    · rw [if_pos hst]
    · rw [if_neg hst]
      cases hmin : MasterController.minByDist e.currentFloor
          (List.foldl (fun ds kv => if kv.2 = id then setInsert kv.1.1 ds else ds)
            e.carCalls s.assignments) with
      | none => rfl
      | some target =>
        dsimp only
        by_cases htgt : target = e.currentFloor
        · rw [if_pos htgt]
          dsimp only
          apply Building.getElevatorOpt_modify_carCalls
          intro e2
          rfl
        · rw [if_neg htgt]
          dsimp only
          apply Building.getElevatorOpt_modify_carCalls
          intro e2
          rfl

/-- Dispatching never changes the config. -/
theorem MasterController.dispatch_config (s : MasterController) (id : Int) :
    (s.dispatchElevator id).building.config = s.building.config := by
  unfold MasterController.dispatchElevator
  cases hget : s.building.getElevatorOpt id with
  | none => rfl
  | some e =>
    dsimp only
    by_cases hst : e.state ≠ ElevatorState.Idle
    · rw [if_pos hst]
    · rw [if_neg hst]
      cases hmin : MasterController.minByDist e.currentFloor
          (List.foldl (fun ds kv => if kv.2 = id then setInsert kv.1.1 ds else ds)
            e.carCalls s.assignments) with
      | none => rfl
      | some target =>
        dsimp only
        by_cases htgt : target = e.currentFloor
        · rw [if_pos htgt]
          dsimp only
          exact Building.modifyElevator_config _ _ _
        · rw [if_neg htgt]
          dsimp only
          exact Building.modifyElevator_config _ _ _

/-- The distributed next-action decision never changes any car's call
set. -/
theorem DistributedController.decide_carCalls (s : DistributedController) (id id2 : Int) :
    ((s.decideNextAction id).building.getElevatorOpt id2).map Elevator.carCalls =
      (s.building.getElevatorOpt id2).map Elevator.carCalls := by
  unfold DistributedController.decideNextAction
  cases hget : s.building.getElevatorOpt id with
  | none => rfl
  | some e =>
    dsimp only
    by_cases hst : e.state ≠ ElevatorState.Idle
    · rw [if_pos hst]
    · rw [if_neg hst]
      cases hmin : MasterController.minByDist e.currentFloor
          (List.foldl (fun ds k => setInsert k.1 ds) e.carCalls (s.getClaimsFor id)) with
      | none => rfl
      | some target =>
        dsimp only
        by_cases htgt : target = e.currentFloor
        · rw [if_pos htgt]
          dsimp only
          apply Building.getElevatorOpt_modify_carCalls
          intro e2
          rfl
        · rw [if_neg htgt]
          dsimp only
          apply Building.getElevatorOpt_modify_carCalls
          intro e2
          rfl

/-- The distributed next-action decision never changes the config. -/
theorem DistributedController.decide_config (s : DistributedController) (id : Int) :
    (s.decideNextAction id).building.config = s.building.config := by
  unfold DistributedController.decideNextAction
  cases hget : s.building.getElevatorOpt id with
  | none => rfl
  | some e =>
    dsimp only
    by_cases hst : e.state ≠ ElevatorState.Idle
    · rw [if_pos hst]
    · rw [if_neg hst]
      cases hmin : MasterController.minByDist e.currentFloor
          (List.foldl (fun ds k => setInsert k.1 ds) e.carCalls (s.getClaimsFor id)) with
      | none => rfl
      | some target =>
        dsimp only
        by_cases htgt : target = e.currentFloor
        · rw [if_pos htgt]
          dsimp only
          exact Building.modifyElevator_config _ _ _
        · rw [if_neg htgt]
          dsimp only
          exact Building.modifyElevator_config _ _ _

/-- Validity of a car id only depends on the config. -/
theorem Building.isValidElevator_congr (b1 b2 : Building) (hcfg : b1.config = b2.config)
    (id : Int) : b1.isValidElevator id ↔ b2.isValidElevator id := by
  unfold Building.isValidElevator
  rw [hcfg]

/-- Validity of a floor only depends on the config. -/
theorem Building.isValidFloor_congr (b1 b2 : Building) (hcfg : b1.config = b2.config)
    (floor : Int) : b1.isValidFloor floor ↔ b2.isValidFloor floor := by
  unfold Building.isValidFloor
  rw [hcfg]

/-- Content of a valid Master `handleCarCall`: the target car's call
set gains exactly the inserted floor, and the config is untouched. -/
theorem masterHandleCarCall_content (s : MasterController) (c f : Int)
    (e : Elevator)
    (hv : s.building.isValidElevator c ∧ s.building.isValidFloor f)
    (he : s.building.getElevatorOpt c = some e) :
    ∃ e2, (s.handleCarCall c f).building.getElevatorOpt c = some e2 ∧
      e2.carCalls = setInsert f e.carCalls ∧
      (s.handleCarCall c f).building.config = s.building.config := by
  have hstep : s.handleCarCall c f =
      MasterController.dispatchElevator
        ⟨s.building.modifyElevator c (fun e2 => e2.addCarCall f), s.assignments⟩ c := by
    unfold MasterController.handleCarCall
    rw [if_pos hv]
  have hmod := Building.getElevatorOpt_modify_self s.building c (fun e2 => e2.addCarCall f) e he
  have hmap := MasterController.dispatch_carCalls
    ⟨s.building.modifyElevator c (fun e2 => e2.addCarCall f), s.assignments⟩ c c
  rw [hmod] at hmap
  rw [hstep]
  obtain ⟨e2, he2, hcc⟩ := Option.map_eq_some'.mp hmap
  refine ⟨e2, he2, hcc, ?_⟩
  rw [MasterController.dispatch_config]
  exact Building.modifyElevator_config _ _ _

/-- Content of a valid Distributed `handleCarCall`. -/
theorem distHandleCarCall_content (s : DistributedController) (c f : Int)
    (e : Elevator)
    (hv : s.building.isValidElevator c ∧ s.building.isValidFloor f)
    (he : s.building.getElevatorOpt c = some e) :
    ∃ e2, (s.handleCarCall c f).building.getElevatorOpt c = some e2 ∧
      e2.carCalls = setInsert f e.carCalls ∧
      (s.handleCarCall c f).building.config = s.building.config := by
  have hstep : s.handleCarCall c f =
      DistributedController.decideNextAction
        ⟨s.building.modifyElevator c (fun e2 => e2.addCarCall f), s.claimBoard⟩ c := by
    unfold DistributedController.handleCarCall
    rw [if_pos hv]
  have hmod := Building.getElevatorOpt_modify_self s.building c (fun e2 => e2.addCarCall f) e he
  have hmap := DistributedController.decide_carCalls
    ⟨s.building.modifyElevator c (fun e2 => e2.addCarCall f), s.claimBoard⟩ c c
  rw [hmod] at hmap
  rw [hstep]
  obtain ⟨e2, he2, hcc⟩ := Option.map_eq_some'.mp hmap
  refine ⟨e2, he2, hcc, ?_⟩
  rw [DistributedController.decide_config]
  exact Building.modifyElevator_config _ _ _

/-- Iterated Master `handleCarCall`: after any positive number of
identical calls, the target car's call set is the single insertion. -/
theorem masterHandleCarCall_iter (c f : Int) :
    ∀ (K : Nat) (s : MasterController) (e : Elevator),
      s.building.isValidElevator c → s.building.isValidFloor f →
      s.building.getElevatorOpt c = some e →
      ∃ e2,
        ((fun s2 => MasterController.handleCarCall s2 c f)^[K + 1] s).building.getElevatorOpt
          c = some e2 ∧
        e2.carCalls = setInsert f e.carCalls ∧
        ((fun s2 => MasterController.handleCarCall s2 c f)^[K + 1] s).building.config =
          s.building.config := by
  intro K
  induction K with
  | zero =>
    intro s e hv1 hv2 he
    exact masterHandleCarCall_content s c f e ⟨hv1, hv2⟩ he
  | succ m ih =>
    intro s e hv1 hv2 he
    obtain ⟨e1, he1, hcc1, hcfg1⟩ :=
      masterHandleCarCall_content s c f e ⟨hv1, hv2⟩ he
    have hv1' : (s.handleCarCall c f).building.isValidElevator c :=
      (Building.isValidElevator_congr _ _ hcfg1 c).mpr hv1
    have hv2' : (s.handleCarCall c f).building.isValidFloor f :=
      (Building.isValidFloor_congr _ _ hcfg1 f).mpr hv2
    obtain ⟨e2, he2, hcc2, hcfg2⟩ := ih (s.handleCarCall c f) e1 hv1' hv2' he1
    rw [Function.iterate_succ_apply]
    refine ⟨e2, he2, ?_, by rw [hcfg2, hcfg1]⟩
    rw [hcc2, hcc1, setInsert_idem]

/-- Iterated Distributed `handleCarCall`. -/
theorem distHandleCarCall_iter (c f : Int) :
    ∀ (K : Nat) (s : DistributedController) (e : Elevator),
      s.building.isValidElevator c → s.building.isValidFloor f →
      s.building.getElevatorOpt c = some e →
      ∃ e2,
        ((fun s2 => DistributedController.handleCarCall s2 c f)^[K + 1] s).building.getElevatorOpt
          c = some e2 ∧
        e2.carCalls = setInsert f e.carCalls ∧
        ((fun s2 => DistributedController.handleCarCall s2 c f)^[K + 1] s).building.config =
          s.building.config := by
  intro K
  induction K with
  | zero =>
    intro s e hv1 hv2 he
    exact distHandleCarCall_content s c f e ⟨hv1, hv2⟩ he
  | succ m ih =>
    intro s e hv1 hv2 he
    obtain ⟨e1, he1, hcc1, hcfg1⟩ :=
      distHandleCarCall_content s c f e ⟨hv1, hv2⟩ he
    have hv1' : (s.handleCarCall c f).building.isValidElevator c :=
      (Building.isValidElevator_congr _ _ hcfg1 c).mpr hv1
    have hv2' : (s.handleCarCall c f).building.isValidFloor f :=
      (Building.isValidFloor_congr _ _ hcfg1 f).mpr hv2
    obtain ⟨e2, he2, hcc2, hcfg2⟩ := ih (s.handleCarCall c f) e1 hv1' hv2' he1
    rw [Function.iterate_succ_apply]
    refine ⟨e2, he2, ?_, by rw [hcfg2, hcfg1]⟩
    rw [hcc2, hcc1, setInsert_idem]

/-- C5: for every `K ≥ 1`, calling `handleHallCall(f, d)` `K` times in
a row — in either scheduler — produces exactly the state of calling it
once (assignment table / claim board, floor buttons and cars alike,
since the whole controller state is equal), and calling
`handleCarCall(c, f)` `K` times on a valid car and floor leaves that
car's `carCalls` containing `f` exactly once. -/
theorem C5_idempotence :
    (∀ (s : MasterController) (f : Int) (d : Direction) (K : Nat), 1 ≤ K →
      (fun s2 => MasterController.handleHallCall s2 f d)^[K] s = s.handleHallCall f d) ∧
    (∀ (s : DistributedController) (f : Int) (d : Direction) (K : Nat), 1 ≤ K →
      (fun s2 => DistributedController.handleHallCall s2 f d)^[K] s = s.handleHallCall f d) ∧
    (∀ (s : MasterController) (c f : Int) (K : Nat) (e : Elevator), 1 ≤ K →
      s.building.isValidElevator c → s.building.isValidFloor f →
      s.building.getElevatorOpt c = some e → e.carCalls.Sorted (· < ·) →
      ∃ e2,
        ((fun s2 => MasterController.handleCarCall s2 c f)^[K] s).building.getElevatorOpt c =
          some e2 ∧ e2.carCalls.count f = 1) ∧
    (∀ (s : DistributedController) (c f : Int) (K : Nat) (e : Elevator), 1 ≤ K →
      s.building.isValidElevator c → s.building.isValidFloor f →
      s.building.getElevatorOpt c = some e → e.carCalls.Sorted (· < ·) →
      ∃ e2,
        ((fun s2 => DistributedController.handleCarCall s2 c f)^[K] s).building.getElevatorOpt
          c = some e2 ∧ e2.carCalls.count f = 1) := by
  refine ⟨?_, ?_, ?_, ?_⟩
  · intro s f d K hK
    obtain ⟨n, rfl⟩ : ∃ n, K = n + 1 := ⟨K - 1, by omega⟩
    exact iterate_of_idem _ (fun x => masterHandleHallCall_idem x f d) n s
  · intro s f d K hK
    obtain ⟨n, rfl⟩ : ∃ n, K = n + 1 := ⟨K - 1, by omega⟩
    exact iterate_of_idem _ (fun x => distHandleHallCall_idem x f d) n s
  · intro s c f K e hK hv1 hv2 he hsorted
    obtain ⟨n, rfl⟩ : ∃ n, K = n + 1 := ⟨K - 1, by omega⟩
    obtain ⟨e2, he2, hcc, -⟩ := masterHandleCarCall_iter c f n s e hv1 hv2 he
    refine ⟨e2, he2, ?_⟩
    rw [hcc]
    exact setInsert_count_self f e.carCalls hsorted
  · intro s c f K e hK hv1 hv2 he hsorted
    obtain ⟨n, rfl⟩ : ∃ n, K = n + 1 := ⟨K - 1, by omega⟩
    obtain ⟨e2, he2, hcc, -⟩ := distHandleCarCall_iter c f n s e hv1 hv2 he
    refine ⟨e2, he2, ?_⟩
    rw [hcc]
    exact setInsert_count_self f e.carCalls hsorted

/-- Witness for C5: three identical calls on concrete states — the
hall call `(8, Up)` on the two-car Master state, the hall call
`(5, Up)` on the Scenario D distributed state, and the car call
`(0, 4)` on both — behave like one call (Scenario E: `carCalls = {4}`
exactly). -/
theorem C5_idempotence_witness :
    ((fun s2 => MasterController.handleHallCall s2 8 Direction.Up)^[3] scenB =
      scenB.handleHallCall 8 Direction.Up) ∧
    ((fun s2 => DistributedController.handleHallCall s2 5 Direction.Up)^[3] scenD0 =
      scenD0.handleHallCall 5 Direction.Up) ∧
    (∃ e2,
      ((fun s2 => MasterController.handleCarCall s2 0 4)^[3] scenB).building.getElevatorOpt 0 =
        some e2 ∧ e2.carCalls.count 4 = 1) ∧
    (∃ e2,
      ((fun s2 => DistributedController.handleCarCall s2 0 4)^[3]
          scenD0).building.getElevatorOpt 0 = some e2 ∧ e2.carCalls.count 4 = 1) := by
  refine ⟨?_, ?_, ?_, ?_⟩
  · exact C5_idempotence.1 scenB 8 Direction.Up 3 (by omega)
  · exact C5_idempotence.2.1 scenD0 5 Direction.Up 3 (by omega)
  · exact C5_idempotence.2.2.1 scenB 0 4 3 (mkElevator 0 6 1) (by omega) (by decide)
      (by decide) rfl (by decide)
  · exact C5_idempotence.2.2.2 scenD0 0 4 3 (mkElevator 0 6 1) (by omega) (by decide)
      (by decide) rfl (by decide)

end ElevatorDesign
